import Mathlib

set_option autoImplicit false
set_option linter.unusedVariables false

/-! Shallow embedding of `pytableview/view.py`: the lazy data-source pipeline
(`IteratorDataSource`, `FilterDataSource`) and the `TableView` controller. -/

/-- A value of a record column (Python values are stringified for matching;
we model them as strings, with `str` the identity). -/
abbrev Val := String

/-- A Record is the ordered key → value mapping produced by the upstream
iterator (Python `dict`).  The Python truthiness test `if not item` holds
exactly when the record is the empty mapping (or `None`, modelled as
`Option.none` at the interface). -/
abbrev Record := List (String × Val)

/-- Mutable state of `IteratorDataSource`: the append-only `cache`, the
high-water mark `pointer` (an `int`, starting at `-1`), and the position of
the wrapped iterator (the number of items already consumed from it). -/
structure IterState where
  cache : List Record
  pointer : Int
  iterPos : Nat
  deriving DecidableEq

/-- Fresh `IteratorDataSource.__init__` state. -/
def IterState.init : IterState := ⟨[], -1, 0⟩

/-- `IteratorDataSource.raw(i)`, traced: the wrapped iterator is modelled as
the list `items` plus the consumed-count `iterPos`; `await next(self.iterator)`
returns `items[iterPos]` and advances, or raises `StopAsyncIteration` when the
items are exhausted.  The third component records the iterator positions at
which `next` was invoked (the failed terminal probe included).

    async def raw(self, i):
        while i > self.pointer:
            try:
                item = await next(self.iterator)
                self.cache.append(item)
                self.pointer += 1  # only increment if no exception was thrown
            except StopAsyncIteration:
                return None
        return self.cache[i]
-/
def IteratorDataSource.rawT (items : List Record) (i : Nat) (s : IterState) :
    Option Record × IterState × List Nat :=
  if h : (i : Int) > s.pointer then
    match items[s.iterPos]? with
    | some item =>
      let r := IteratorDataSource.rawT items i ⟨s.cache ++ [item], s.pointer + 1, s.iterPos + 1⟩
      (r.1, r.2.1, s.iterPos :: r.2.2)
    | none => (none, s, [s.iterPos])
  else
    (s.cache[i]?, s, [])
termination_by ((i : Int) + 1 - s.pointer).toNat
decreasing_by omega

/-- `IteratorDataSource.raw(i)` without the ghost trace. -/
def IteratorDataSource.raw (items : List Record) (i : Nat) (s : IterState) :
    Option Record × IterState :=
  ((IteratorDataSource.rawT items i s).1, (IteratorDataSource.rawT items i s).2.1)

example : (IteratorDataSource.rawT [[("a", "x")]] 0 .init).1 = some [("a", "x")] := by
  simp [IteratorDataSource.rawT, IterState.init]

example : IteratorDataSource.raw [] 0 .init = (none, .init) := by
  simp [IteratorDataSource.raw, IteratorDataSource.rawT, IterState.init]

/-- Invariant of reachable `IteratorDataSource` states: the cache is exactly
the consumed portion of the underlying item sequence, and the high-water mark
`pointer` trails the cache length by one. -/
def IterInv (items : List Record) (s : IterState) : Prop :=
  s.cache = items.take s.iterPos ∧ s.pointer = (s.cache.length : Int) - 1 ∧
    s.iterPos ≤ items.length

theorem iterInv_init (items : List Record) : IterInv items .init := by
  simp [IterInv, IterState.init]

/-- The iterator position after `raw i` has been served from state `s`. -/
def iterAfterPos (items : List Record) (i : Nat) (s : IterState) : Nat :=
  max s.iterPos (min (i + 1) items.length)

theorem iterInv_length (items : List Record) (s : IterState) (hinv : IterInv items s) :
    s.cache.length = s.iterPos := by
  obtain ⟨hc, -, hl⟩ := hinv
  rw [hc, List.length_take]
  omega

/-- Characterization of `IteratorDataSource.raw` on invariant states: the
result is `items[i]?`, the new state has materialized exactly through
`iterAfterPos`, and the upstream `next` calls are the fresh consecutive
positions, plus one failed terminal probe exactly when the result is the
sentinel. -/
theorem IteratorDataSource.rawT_materializes (items : List Record) (i : Nat) (s : IterState)
    (hinv : IterInv items s) :
    IteratorDataSource.rawT items i s =
      (items[i]?,
       ⟨items.take (iterAfterPos items i s), (iterAfterPos items i s : Int) - 1,
        iterAfterPos items i s⟩,
       List.range' s.iterPos (iterAfterPos items i s - s.iterPos) ++
         (if items.length ≤ i then [iterAfterPos items i s] else [])) := by
  induction s using IteratorDataSource.rawT.induct items i with
  | case1 s h item hm ih =>
    have hlen := iterInv_length items s hinv
    obtain ⟨hc, hp, hl⟩ := hinv
    have hlt : s.iterPos < items.length := by
      rcases List.getElem?_eq_some_iff.mp hm with ⟨h1, -⟩
      exact h1
    have hinv' : IterInv items ⟨s.cache ++ [item], s.pointer + 1, s.iterPos + 1⟩ := by
      refine ⟨?_, ?_, ?_⟩
      · rw [List.take_succ, hm, hc]
        rfl
      · show s.pointer + 1 = ((s.cache ++ [item]).length : Int) - 1
        rw [hp]
        simp
      · show s.iterPos + 1 ≤ items.length
        omega
    have ih' := ih hinv'
    have hi : s.iterPos ≤ i := by
      rw [hp] at h
      omega
    have hP : iterAfterPos items i ⟨s.cache ++ [item], s.pointer + 1, s.iterPos + 1⟩ =
        iterAfterPos items i s := by
      show max (s.iterPos + 1) (min (i + 1) items.length) =
        max s.iterPos (min (i + 1) items.length)
      omega
    have hge : s.iterPos + 1 ≤ iterAfterPos items i s := by
      show s.iterPos + 1 ≤ max s.iterPos (min (i + 1) items.length)
      omega
    rw [IteratorDataSource.rawT, dif_pos h, hm]
    dsimp only
    rw [ih', hP]
    dsimp only
    refine congrArg _ (congrArg _ ?_)
    rw [show iterAfterPos items i s - s.iterPos =
          (iterAfterPos items i s - (s.iterPos + 1)) + 1 by omega]
    rw [List.range'_succ s.iterPos _ 1, List.cons_append]
  | case2 s h hm =>
    have hlen := iterInv_length items s hinv
    obtain ⟨hc, hp, hl⟩ := hinv
    have hge : items.length ≤ s.iterPos := List.getElem?_eq_none_iff.mp hm
    have hpos : s.iterPos = items.length := by omega
    have hi : items.length ≤ i := by
      rw [hp] at h
      omega
    have hP : iterAfterPos items i s = s.iterPos := by
      simp only [iterAfterPos]
      omega
    rw [IteratorDataSource.rawT]
    simp only [gt_iff_lt, hp] at h ⊢
    rw [dif_pos (by omega)]
    rw [hm]
    have hni : items[i]? = none := List.getElem?_eq_none_iff.mpr (by omega)
    simp only [hP, hni, if_pos hi]
    refine Prod.ext rfl (Prod.ext ?_ ?_)
    · simp only []
      cases s with
      | mk c p q =>
        simp_all
    · simp
  | case3 s h =>
    have hlen := iterInv_length items s hinv
    obtain ⟨hc, hp, hl⟩ := hinv
    have hi : i < s.iterPos := by
      rw [hp] at h
      omega
    have hP : iterAfterPos items i s = s.iterPos := by
      simp only [iterAfterPos]
      omega
    rw [IteratorDataSource.rawT]
    rw [dif_neg h]
    have hres : s.cache[i]? = items[i]? := by
      rw [hc, List.getElem?_take]
      simp [hi]
    simp only [hP, hres]
    refine Prod.ext rfl (Prod.ext ?_ ?_)
    · simp only []
      cases s with
      | mk c p q =>
        simp_all
    · simp only []
      have : items.length ≤ i ↔ False := by
        simp
        omega
      simp [this]

/-- On an invariant state, `raw` returns `items[i]?`: the table is
observationally pure over the underlying item sequence. -/
theorem IteratorDataSource.raw_fst (items : List Record) (i : Nat) (s : IterState)
    (hinv : IterInv items s) :
    (IteratorDataSource.raw items i s).1 = items[i]? := by
  rw [IteratorDataSource.raw]
  rw [IteratorDataSource.rawT_materializes items i s hinv]

theorem IteratorDataSource.raw_snd (items : List Record) (i : Nat) (s : IterState)
    (hinv : IterInv items s) :
    (IteratorDataSource.raw items i s).2 =
      ⟨items.take (iterAfterPos items i s), (iterAfterPos items i s : Int) - 1,
       iterAfterPos items i s⟩ := by
  rw [IteratorDataSource.raw]
  rw [IteratorDataSource.rawT_materializes items i s hinv]

theorem iterAfterPos_le (items : List Record) (i : Nat) (s : IterState)
    (hl : s.iterPos ≤ items.length) : iterAfterPos items i s ≤ items.length := by
  simp only [iterAfterPos]
  omega

theorem iterInv_raw (items : List Record) (i : Nat) (s : IterState)
    (hinv : IterInv items s) :
    IterInv items (IteratorDataSource.raw items i s).2 := by
  rw [IteratorDataSource.raw_snd items i s hinv]
  have hle := iterAfterPos_le items i s hinv.2.2
  refine ⟨rfl, ?_, hle⟩
  show ((iterAfterPos items i s : Int)) - 1 = ((items.take (iterAfterPos items i s)).length : Int) - 1
  rw [List.length_take]
  omega

/-- Potential of an iterator state: materialized records plus records still
available from the wrapped iterator.  `raw` preserves it (each pull moves one
item from the iterator into the cache). -/
def iterPot (items : List Record) (s : IterState) : Nat :=
  s.cache.length + (items.length - s.iterPos)

theorem iterPot_raw (items : List Record) (i : Nat) (s : IterState) :
    iterPot items (IteratorDataSource.rawT items i s).2.1 = iterPot items s := by
  induction s using IteratorDataSource.rawT.induct items i with
  | case1 s h item hm ih =>
    rw [IteratorDataSource.rawT, dif_pos h, hm]
    dsimp only
    rw [ih]
    have hlt : s.iterPos < items.length := by
      rcases List.getElem?_eq_some_iff.mp hm with ⟨h1, -⟩
      exact h1
    simp only [iterPot, List.length_append, List.length_cons, List.length_nil]
    omega
  | case2 s h hm =>
    rw [IteratorDataSource.rawT, dif_pos h, hm]
  | case3 s h =>
    rw [IteratorDataSource.rawT, dif_neg h]

theorem IteratorDataSource.rawT_some_lt (items : List Record) (i : Nat) (s : IterState)
    (r : Record) (hr : (IteratorDataSource.rawT items i s).1 = some r) :
    i < (IteratorDataSource.rawT items i s).2.1.cache.length := by
  induction s using IteratorDataSource.rawT.induct items i with
  | case1 s h item hm ih =>
    rw [IteratorDataSource.rawT, dif_pos h, hm] at hr ⊢
    exact ih hr
  | case2 s h hm =>
    rw [IteratorDataSource.rawT, dif_pos h, hm] at hr
    exact absurd hr (by simp)
  | case3 s h =>
    rw [IteratorDataSource.rawT, dif_neg h] at hr ⊢
    rcases List.getElem?_eq_some_iff.mp hr with ⟨h1, -⟩
    exact h1

theorem iterPot_cache_le (items : List Record) (s : IterState) :
    s.cache.length ≤ iterPot items s := by
  simp [iterPot]

/-- Mutable state of `FilterDataSource`: the cache of matches found so far,
the filtered high-water mark `pointer` (starting at `-1`), and
`upstream_pointer`, the next unconsidered upstream index (starting at 0). -/
structure FilterState where
  cache : List Record
  pointer : Int
  upstream_pointer : Nat
  deriving DecidableEq

/-- Fresh `FilterDataSource.__init__` state. -/
def FilterState.init : FilterState := ⟨[], -1, 0⟩

/-- One round of the inner `while True` loop of `FilterDataSource.raw`,
running until a match is appended (`true`) or the upstream pull is falsy
(`None` or an empty record: `if not item`), in which case the loop returns
the sentinel (`false`) without advancing `upstream_pointer` past the falsy
item and without evaluating the predicate on it.  The upstream is the
`IteratorDataSource` it wraps (threaded `IterState`).  The final component
records the upstream indices on which the predicate `query` was evaluated.

            while True:
                item = await self.upstream.raw(self.upstream_pointer)
                if not item:
                    return None

                self.upstream_pointer += 1
                if await self.query(item):
                    self.cache.append(item)
                    self.pointer += 1
                    break
-/
def filterScanT (query : Record → Bool) (items : List Record) (fs : FilterState)
    (us : IterState) : Bool × FilterState × IterState × List Nat :=
  match hr : IteratorDataSource.raw items fs.upstream_pointer us with
  | (none, us') => (false, fs, us', [])
  | (some item, us') =>
    if item.isEmpty then (false, fs, us', [])
    else if query item then
      (true,
       { cache := fs.cache ++ [item], pointer := fs.pointer + 1,
         upstream_pointer := fs.upstream_pointer + 1 },
       us', [fs.upstream_pointer])
    else
      let r := filterScanT query items
        { fs with upstream_pointer := fs.upstream_pointer + 1 } us'
      (r.1, r.2.1, r.2.2.1, fs.upstream_pointer :: r.2.2.2)
termination_by iterPot items us - fs.upstream_pointer
decreasing_by
  have h1 : (IteratorDataSource.rawT items fs.upstream_pointer us).1 = some item :=
    congrArg Prod.fst hr
  have h2 : (IteratorDataSource.rawT items fs.upstream_pointer us).2.1 = us' :=
    congrArg Prod.snd hr
  have hlt := IteratorDataSource.rawT_some_lt items fs.upstream_pointer us item h1
  have hpot := iterPot_raw items fs.upstream_pointer us
  rw [h2] at hlt hpot
  have hcl := iterPot_cache_le items us'
  omega

/-- Unfolding: the inner loop when the upstream pull is the sentinel. -/
theorem filterScanT_eq_none (query : Record → Bool) (items : List Record)
    (fs : FilterState) (us us' : IterState)
    (hr : IteratorDataSource.raw items fs.upstream_pointer us = (none, us')) :
    filterScanT query items fs us = (false, fs, us', []) := by
  rw [filterScanT]
  split
  · rename_i us2 heq
    rw [hr] at heq
    injection heq with h1 h2
    rw [h2]
  · rename_i item us2 heq
    rw [hr] at heq
    injection heq with h1 h2
    exact absurd h1 (by simp)

/-- Unfolding: the inner loop when the upstream pull is an empty (falsy)
record. -/
theorem filterScanT_eq_empty (query : Record → Bool) (items : List Record)
    (fs : FilterState) (us us' : IterState) (item : Record)
    (hr : IteratorDataSource.raw items fs.upstream_pointer us = (some item, us'))
    (he : item.isEmpty = true) :
    filterScanT query items fs us = (false, fs, us', []) := by
  rw [filterScanT]
  split
  · rename_i us2 heq
    rw [hr] at heq
    injection heq with h1 h2
    exact absurd h1 (by simp)
  · rename_i item2 us2 heq
    rw [hr] at heq
    injection heq with h1 h2
    injection h1 with h1
    rw [h1] at he
    rw [if_pos he, h2]

/-- Unfolding: the inner loop when the pulled record is truthy and matches. -/
theorem filterScanT_eq_match (query : Record → Bool) (items : List Record)
    (fs : FilterState) (us us' : IterState) (item : Record)
    (hr : IteratorDataSource.raw items fs.upstream_pointer us = (some item, us'))
    (he : ¬item.isEmpty = true) (hq : query item = true) :
    filterScanT query items fs us =
      (true,
       { cache := fs.cache ++ [item], pointer := fs.pointer + 1,
         upstream_pointer := fs.upstream_pointer + 1 },
       us', [fs.upstream_pointer]) := by
  rw [filterScanT]
  split
  · rename_i us2 heq
    rw [hr] at heq
    injection heq with h1 h2
    exact absurd h1 (by simp)
  · rename_i item2 us2 heq
    rw [hr] at heq
    injection heq with h1 h2
    injection h1 with h1
    subst h1
    subst h2
    rw [if_neg he, if_pos hq]

/-- Unfolding: the inner loop when the pulled record is truthy but does not
match, so the loop continues with the upstream pointer advanced. -/
theorem filterScanT_eq_skip (query : Record → Bool) (items : List Record)
    (fs : FilterState) (us us' : IterState) (item : Record)
    (hr : IteratorDataSource.raw items fs.upstream_pointer us = (some item, us'))
    (he : ¬item.isEmpty = true) (hq : ¬query item = true) :
    filterScanT query items fs us =
      ((filterScanT query items
          { fs with upstream_pointer := fs.upstream_pointer + 1 } us').1,
       (filterScanT query items
          { fs with upstream_pointer := fs.upstream_pointer + 1 } us').2.1,
       (filterScanT query items
          { fs with upstream_pointer := fs.upstream_pointer + 1 } us').2.2.1,
       fs.upstream_pointer ::
         (filterScanT query items
            { fs with upstream_pointer := fs.upstream_pointer + 1 } us').2.2.2) := by
  rw [filterScanT]
  split
  · rename_i us2 heq
    rw [hr] at heq
    injection heq with h1 h2
    exact absurd h1 (by simp)
  · rename_i item2 us2 heq
    rw [hr] at heq
    injection heq with h1 h2
    injection h1 with h1
    subst h1
    subst h2
    rw [if_neg he, if_neg hq]

/-- A successful inner-loop round appends exactly one match: the filtered
high-water mark advances by one. -/
theorem filterScanT_true_pointer (query : Record → Bool) (items : List Record)
    (fs : FilterState) (us : IterState)
    (ht : (filterScanT query items fs us).1 = true) :
    (filterScanT query items fs us).2.1.pointer = fs.pointer + 1 := by
  induction fs, us using filterScanT.induct query items with
  | case1 fs us us' hr =>
    rw [filterScanT_eq_none query items fs us us' hr] at ht
    exact absurd ht (by simp)
  | case2 fs us item us' hr he =>
    rw [filterScanT_eq_empty query items fs us us' item hr he] at ht
    exact absurd ht (by simp)
  | case3 fs us item us' hr he hq =>
    rw [filterScanT_eq_match query items fs us us' item hr he hq]
  | case4 fs us item us' hr he hq ih =>
    rw [filterScanT_eq_skip query items fs us us' item hr he hq] at ht ⊢
    exact ih ht

/-- The records actually reachable through the pipeline: the prefix of the
upstream sequence before the first falsy (empty) record.  Both data sources
stop at the first falsy pull, so everything observable is a function of this
prefix. -/
def avail (items : List Record) : List Record :=
  items.takeWhile (fun r => !r.isEmpty)

theorem avail_length_le (items : List Record) : (avail items).length ≤ items.length := by
  induction items with
  | nil => simp [avail]
  | cons a t ih =>
    by_cases ha : a.isEmpty = true
    · simp [avail, List.takeWhile_cons, ha]
    · simp only [avail, List.takeWhile_cons] at ih ⊢
      simp only [Bool.not_eq_true] at ha
      simp [ha]
      omega

theorem avail_lt (items : List Record) (k : Nat) (h : k < (avail items).length) :
    items[k]? = (avail items)[k]? ∧
      ∃ r, (avail items)[k]? = some r ∧ r.isEmpty = false := by
  induction items generalizing k with
  | nil => simp [avail] at h
  | cons a t ih =>
    by_cases ha : a.isEmpty = true
    · simp [avail, List.takeWhile_cons, ha] at h
    · simp only [Bool.not_eq_true] at ha
      have hava : avail (a :: t) = a :: avail t := by
        simp [avail, List.takeWhile_cons, ha]
      match k with
      | 0 => exact ⟨by simp [hava], a, by simp [hava], ha⟩
      | k + 1 =>
        have h' : k < (avail t).length := by
          rw [hava] at h
          simpa using h
        obtain ⟨h1, r, h2, h3⟩ := ih k h'
        exact ⟨by simpa [hava] using h1, r, by simpa [hava] using h2, h3⟩

theorem avail_after (items : List Record) :
    items[(avail items).length]? = none ∨
      ∃ r, items[(avail items).length]? = some r ∧ r.isEmpty = true := by
  induction items with
  | nil => left; simp
  | cons a t ih =>
    by_cases ha : a.isEmpty = true
    · right
      have h0 : avail (a :: t) = [] := by simp [avail, List.takeWhile_cons, ha]
      exact ⟨a, by simp [h0], ha⟩
    · simp only [Bool.not_eq_true] at ha
      have hava : avail (a :: t) = a :: avail t := by
        simp [avail, List.takeWhile_cons, ha]
      rcases ih with h | ⟨r, h1, h2⟩
      · left
        simpa [hava] using h
      · right
        exact ⟨r, by simpa [hava] using h1, h2⟩

/-- Characterization of one inner-loop round of `FilterDataSource.raw` on
invariant states: it scans a contiguous block of truthy upstream records,
evaluating the predicate once on each, and either appends the first match
(`true`) or reaches the end of the available prefix without one (`false`,
the sentinel case, which leaves `cache` and `pointer` untouched). -/
theorem filterScanT_char (query : Record → Bool) (items : List Record)
    (fs : FilterState) (us : IterState) :
    IterInv items us → fs.upstream_pointer ≤ (avail items).length →
    fs.cache = ((avail items).take fs.upstream_pointer).filter query →
    ∃ u', fs.upstream_pointer ≤ u' ∧ u' ≤ (avail items).length ∧
      (filterScanT query items fs us).2.1.upstream_pointer = u' ∧
      (filterScanT query items fs us).2.1.cache =
        ((avail items).take u').filter query ∧
      (filterScanT query items fs us).2.1.pointer =
        fs.pointer + (if (filterScanT query items fs us).1 then 1 else 0) ∧
      (filterScanT query items fs us).2.1.cache.length =
        fs.cache.length + (if (filterScanT query items fs us).1 then 1 else 0) ∧
      IterInv items (filterScanT query items fs us).2.2.1 ∧
      (filterScanT query items fs us).2.2.2 =
        List.range' fs.upstream_pointer (u' - fs.upstream_pointer) ∧
      ((filterScanT query items fs us).1 = false →
        u' = (avail items).length ∧
          (filterScanT query items fs us).2.1.cache = fs.cache) := by
  induction fs, us using filterScanT.induct query items with
  | case1 fs us us' hr =>
    intro hIter hup hc
    have hr1 : (IteratorDataSource.raw items fs.upstream_pointer us).1 = none := by
      rw [hr]
    have hr2 : (IteratorDataSource.raw items fs.upstream_pointer us).2 = us' := by
      rw [hr]
    have hfst := IteratorDataSource.raw_fst items fs.upstream_pointer us hIter
    have hlen : items.length ≤ fs.upstream_pointer := by
      rw [hfst] at hr1
      exact List.getElem?_eq_none_iff.mp hr1
    have hend : fs.upstream_pointer = (avail items).length := by
      have := avail_length_le items
      omega
    have hInv' : IterInv items us' := by
      rw [← hr2]
      exact iterInv_raw items fs.upstream_pointer us hIter
    rw [filterScanT_eq_none query items fs us us' hr]
    exact ⟨fs.upstream_pointer, le_refl _, hup, rfl, hc, by simp, by simp, hInv',
      by simp, fun _ => ⟨hend, rfl⟩⟩
  | case2 fs us item us' hr he =>
    intro hIter hup hc
    have hr1 : (IteratorDataSource.raw items fs.upstream_pointer us).1 = some item := by
      rw [hr]
    have hr2 : (IteratorDataSource.raw items fs.upstream_pointer us).2 = us' := by
      rw [hr]
    have hfst := IteratorDataSource.raw_fst items fs.upstream_pointer us hIter
    have hitem : items[fs.upstream_pointer]? = some item := by
      rw [← hfst, hr1]
    have hend : fs.upstream_pointer = (avail items).length := by
      by_contra hne
      have hlt : fs.upstream_pointer < (avail items).length := by omega
      obtain ⟨h1, r, h2, h3⟩ := avail_lt items fs.upstream_pointer hlt
      rw [hitem, h2] at h1
      injection h1 with h1
      rw [h1] at he
      rw [he] at h3
      exact absurd h3 (by simp)
    have hInv' : IterInv items us' := by
      rw [← hr2]
      exact iterInv_raw items fs.upstream_pointer us hIter
    rw [filterScanT_eq_empty query items fs us us' item hr he]
    exact ⟨fs.upstream_pointer, le_refl _, hup, rfl, hc, by simp, by simp, hInv',
      by simp, fun _ => ⟨hend, rfl⟩⟩
  | case3 fs us item us' hr he hq =>
    intro hIter hup hc
    have hr1 : (IteratorDataSource.raw items fs.upstream_pointer us).1 = some item := by
      rw [hr]
    have hr2 : (IteratorDataSource.raw items fs.upstream_pointer us).2 = us' := by
      rw [hr]
    have hfst := IteratorDataSource.raw_fst items fs.upstream_pointer us hIter
    have hitem : items[fs.upstream_pointer]? = some item := by
      rw [← hfst, hr1]
    have hlt : fs.upstream_pointer < (avail items).length := by
      rcases Nat.lt_or_ge fs.upstream_pointer (avail items).length with h | h
      · exact h
      · exfalso
        have hend : fs.upstream_pointer = (avail items).length := by omega
        rcases avail_after items with h0 | ⟨r, h1, h2⟩
        · rw [← hend, hitem] at h0
          exact absurd h0 (by simp)
        · rw [← hend, hitem] at h1
          injection h1 with h1
          rw [← h1] at h2
          exact he h2
    have havitem : (avail items)[fs.upstream_pointer]? = some item := by
      obtain ⟨h1, r, h2, h3⟩ := avail_lt items fs.upstream_pointer hlt
      rw [← h1, hitem]
    have hInv' : IterInv items us' := by
      rw [← hr2]
      exact iterInv_raw items fs.upstream_pointer us hIter
    have hcache : fs.cache ++ [item] =
        ((avail items).take (fs.upstream_pointer + 1)).filter query := by
      rw [List.take_succ, havitem, List.filter_append, ← hc]
      simp [hq]
    rw [filterScanT_eq_match query items fs us us' item hr he hq]
    refine ⟨fs.upstream_pointer + 1, by omega, by omega, rfl, hcache, by simp,
      by simp, hInv', ?_, fun hf => absurd hf (by simp)⟩
    simp [List.range'_one]
  | case4 fs us item us' hr he hq ih =>
    intro hIter hup hc
    have hr1 : (IteratorDataSource.raw items fs.upstream_pointer us).1 = some item := by
      rw [hr]
    have hr2 : (IteratorDataSource.raw items fs.upstream_pointer us).2 = us' := by
      rw [hr]
    have hfst := IteratorDataSource.raw_fst items fs.upstream_pointer us hIter
    have hitem : items[fs.upstream_pointer]? = some item := by
      rw [← hfst, hr1]
    have hlt : fs.upstream_pointer < (avail items).length := by
      rcases Nat.lt_or_ge fs.upstream_pointer (avail items).length with h | h
      · exact h
      · exfalso
        have hend : fs.upstream_pointer = (avail items).length := by omega
        rcases avail_after items with h0 | ⟨r, h1, h2⟩
        · rw [← hend, hitem] at h0
          exact absurd h0 (by simp)
        · rw [← hend, hitem] at h1
          injection h1 with h1
          rw [← h1] at h2
          exact he h2
    have havitem : (avail items)[fs.upstream_pointer]? = some item := by
      obtain ⟨h1, r, h2, h3⟩ := avail_lt items fs.upstream_pointer hlt
      rw [← h1, hitem]
    have hInv' : IterInv items us' := by
      rw [← hr2]
      exact iterInv_raw items fs.upstream_pointer us hIter
    have hq' : query item = false := by
      simpa using hq
    have hc1 : ({ fs with upstream_pointer := fs.upstream_pointer + 1 } :
        FilterState).cache =
        ((avail items).take (fs.upstream_pointer + 1)).filter query := by
      show fs.cache = _
      rw [List.take_succ, havitem, List.filter_append, ← hc]
      simp [hq']
    obtain ⟨u', h1, h2, h3, h4, h5, h6, h7, h8, h9⟩ :=
      ih hInv' (by simpa using hlt) hc1
    rw [filterScanT_eq_skip query items fs us us' item hr he hq]
    refine ⟨u', by simp at h1; omega, h2, h3, h4, ?_, ?_, h7, ?_, ?_⟩
    · simpa using h5
    · simpa using h6
    · rw [h8]
      have hgt : fs.upstream_pointer + 1 ≤ u' := by
        simpa using h1
      rw [show u' - fs.upstream_pointer = (u' - (fs.upstream_pointer + 1)) + 1 by omega]
      rw [List.range'_succ fs.upstream_pointer _ 1]
    · intro hf
      obtain ⟨hu, hcc⟩ := h9 hf
      exact ⟨hu, hcc⟩

/-- `FilterDataSource.raw(i)`: the outer `while i > self.pointer` loop,
pulling matches through the inner loop until the filtered high-water mark
reaches `i` or the upstream is exhausted (sentinel, returned immediately
without advancing `pointer`).  The last component concatenates the upstream
indices on which the predicate was evaluated.

    async def raw(self, i):
        while i > self.pointer:
            (inner loop)
        return self.cache[i]
-/
def FilterDataSource.rawT (query : Record → Bool) (items : List Record) (i : Nat)
    (fs : FilterState) (us : IterState) :
    Option Record × FilterState × IterState × List Nat :=
  if h : (i : Int) > fs.pointer then
    match hs : filterScanT query items fs us with
    | (false, fs', us', ev) => (none, fs', us', ev)
    | (true, fs', us', ev) =>
      let r := FilterDataSource.rawT query items i fs' us'
      (r.1, r.2.1, r.2.2.1, ev ++ r.2.2.2)
  else
    (fs.cache[i]?, fs, us, [])
termination_by ((i : Int) + 1 - fs.pointer).toNat
decreasing_by
  have h1 : (filterScanT query items fs us).1 = true := by rw [hs]
  have h2 : (filterScanT query items fs us).2.1 = fs' := by rw [hs]
  have hp := filterScanT_true_pointer query items fs us h1
  rw [h2] at hp
  omega

/-- `FilterDataSource.raw(i)` without the ghost predicate-evaluation trace. -/
def FilterDataSource.raw (query : Record → Bool) (items : List Record) (i : Nat)
    (fs : FilterState) (us : IterState) :
    Option Record × FilterState × IterState :=
  ((FilterDataSource.rawT query items i fs us).1,
   (FilterDataSource.rawT query items i fs us).2.1,
   (FilterDataSource.rawT query items i fs us).2.2.1)

/-- Unfolding: an uncached request whose inner round hits exhaustion. -/
theorem FilterDataSource.rawT_eq_false (query : Record → Bool) (items : List Record)
    (i : Nat) (fs fs' : FilterState) (us us' : IterState) (ev : List Nat)
    (h : (i : Int) > fs.pointer)
    (hs : filterScanT query items fs us = (false, fs', us', ev)) :
    FilterDataSource.rawT query items i fs us = (none, fs', us', ev) := by
  rw [FilterDataSource.rawT, dif_pos h]
  split
  · rename_i fs2 us2 ev2 heq
    rw [hs] at heq
    injection heq with h1 h2
    injection h2 with h2 h3
    injection h3 with h3 h4
    rw [h2, h3, h4]
  · rename_i fs2 us2 ev2 heq
    rw [hs] at heq
    injection heq with h1 h2
    exact absurd h1 (by simp)

/-- Unfolding: an uncached request whose inner round found a match, so the
outer loop re-checks and recurses. -/
theorem FilterDataSource.rawT_eq_true (query : Record → Bool) (items : List Record)
    (i : Nat) (fs fs' : FilterState) (us us' : IterState) (ev : List Nat)
    (h : (i : Int) > fs.pointer)
    (hs : filterScanT query items fs us = (true, fs', us', ev)) :
    FilterDataSource.rawT query items i fs us =
      ((FilterDataSource.rawT query items i fs' us').1,
       (FilterDataSource.rawT query items i fs' us').2.1,
       (FilterDataSource.rawT query items i fs' us').2.2.1,
       ev ++ (FilterDataSource.rawT query items i fs' us').2.2.2) := by
  rw [FilterDataSource.rawT, dif_pos h]
  split
  · rename_i fs2 us2 ev2 heq
    rw [hs] at heq
    injection heq with h1 h2
    exact absurd h1 (by simp)
  · rename_i fs2 us2 ev2 heq
    rw [hs] at heq
    injection heq with h1 h2
    injection h2 with h2 h3
    injection h3 with h3 h4
    subst h2
    subst h3
    subst h4
    rfl

/-- Unfolding: a request already inside the cache is served with no work. -/
theorem FilterDataSource.rawT_eq_cached (query : Record → Bool) (items : List Record)
    (i : Nat) (fs : FilterState) (us : IterState)
    (h : ¬(i : Int) > fs.pointer) :
    FilterDataSource.rawT query items i fs us = (fs.cache[i]?, fs, us, []) := by
  rw [FilterDataSource.rawT, dif_neg h]

/-- Gluing consecutive index ranges. -/
theorem range'_glue (a b c : Nat) (h1 : a ≤ b) (h2 : b ≤ c) :
    List.range' a (b - a) ++ List.range' b (c - b) = List.range' a (c - a) := by
  have h0 := List.range'_append a (b - a) (c - b) 1
  rw [Nat.one_mul] at h0
  rw [show a + (b - a) = b by omega] at h0
  rw [h0, show c - b + (b - a) = c - a by omega]

/-- Invariant of reachable `FilterDataSource` states: `upstream_pointer` has
consumed a prefix of the available upstream records, the cache is exactly the
matching ones among them, and `pointer` trails the cache length by one. -/
def FiltInv (query : Record → Bool) (items : List Record) (fs : FilterState) : Prop :=
  fs.upstream_pointer ≤ (avail items).length ∧
  fs.cache = ((avail items).take fs.upstream_pointer).filter query ∧
  fs.pointer = (fs.cache.length : Int) - 1

theorem filtInv_init (query : Record → Bool) (items : List Record) :
    FiltInv query items .init := by
  simp [FiltInv, FilterState.init]

/-- Characterization of `FilterDataSource.raw` on invariant states: the result
is index `i` of the filtered available upstream sequence, the new filter state
is again an invariant state with some upstream cursor `u'`, the ghost trace
shows the predicate was evaluated exactly once on each freshly consumed
upstream index, and a sentinel result means the whole available prefix has
been scanned. -/
theorem FilterDataSource.rawT_char (query : Record → Bool) (items : List Record)
    (i : Nat) (fs : FilterState) (us : IterState) :
    IterInv items us → FiltInv query items fs →
    ∃ u', fs.upstream_pointer ≤ u' ∧ u' ≤ (avail items).length ∧
      (FilterDataSource.rawT query items i fs us).1 =
        ((avail items).filter query)[i]? ∧
      (FilterDataSource.rawT query items i fs us).2.1 =
        ⟨((avail items).take u').filter query,
         ((((avail items).take u').filter query).length : Int) - 1, u'⟩ ∧
      IterInv items (FilterDataSource.rawT query items i fs us).2.2.1 ∧
      (FilterDataSource.rawT query items i fs us).2.2.2 =
        List.range' fs.upstream_pointer (u' - fs.upstream_pointer) ∧
      ((FilterDataSource.rawT query items i fs us).1 = none →
        u' = (avail items).length) := by
  induction fs, us using FilterDataSource.rawT.induct query items i with
  | case1 fs us h fs' us' ev hs =>
    intro hIter hF
    obtain ⟨hup, hc, hp⟩ := hF
    obtain ⟨u1, s1, s2, s3, s4, s5, s6, s7, s8, s9⟩ :=
      filterScanT_char query items fs us hIter hup hc
    have hsf : (filterScanT query items fs us).1 = false := by rw [hs]
    have hsfs : (filterScanT query items fs us).2.1 = fs' := by rw [hs]
    have hsus : (filterScanT query items fs us).2.2.1 = us' := by rw [hs]
    have hsev : (filterScanT query items fs us).2.2.2 = ev := by rw [hs]
    obtain ⟨hu1, hcc⟩ := s9 hsf
    rw [hsfs] at hcc
    rw [hsf] at s5 s6
    simp only [if_false, Bool.false_eq_true, add_zero, Nat.add_zero] at s5 s6
    rw [hsfs] at s3 s4 s5 s6
    rw [hsus] at s7
    rw [hsev] at s8
    rw [FilterDataSource.rawT_eq_false query items i fs fs' us us' ev h hs]
    have hflen : ((avail items).filter query).length = fs.cache.length := by
      rw [← List.take_length (avail items), ← hu1, ← s4, hcc]
    have hres : ((avail items).filter query)[i]? = none := by
      rw [List.getElem?_eq_none_iff, hflen]
      omega
    refine ⟨u1, s1, s2, by rw [hres], ?_, s7, s8, fun _ => hu1⟩
    have hpp : fs'.pointer = (fs'.cache.length : Int) - 1 := by
      rw [s5, hp, s6]
    show fs' = _
    rw [← s4, ← hpp, ← s3]
  | case2 fs us h fs' us' ev hs ih =>
    intro hIter hF
    obtain ⟨hup, hc, hp⟩ := hF
    obtain ⟨u1, s1, s2, s3, s4, s5, s6, s7, s8, s9⟩ :=
      filterScanT_char query items fs us hIter hup hc
    have hsf : (filterScanT query items fs us).1 = true := by rw [hs]
    have hsfs : (filterScanT query items fs us).2.1 = fs' := by rw [hs]
    have hsus : (filterScanT query items fs us).2.2.1 = us' := by rw [hs]
    have hsev : (filterScanT query items fs us).2.2.2 = ev := by rw [hs]
    rw [hsf] at s5 s6
    simp only [if_true] at s5 s6
    rw [hsfs] at s3 s4 s5 s6
    rw [hsus] at s7
    rw [hsev] at s8
    have hF' : FiltInv query items fs' := by
      refine ⟨by omega, by rw [s4, s3], ?_⟩
      rw [s5, s6, hp]
      push_cast
      ring
    obtain ⟨u2, t1, t2, t3, t4, t5, t6, t7⟩ := ih s7 hF'
    rw [s3] at t1 t6
    rw [FilterDataSource.rawT_eq_true query items i fs fs' us us' ev h hs]
    dsimp only
    refine ⟨u2, by omega, t2, t3, t4, t5, ?_, t7⟩
    rw [t6, s8]
    exact range'_glue fs.upstream_pointer u1 u2 s1 t1
  | case3 fs us h =>
    intro hIter hF
    obtain ⟨hup, hc, hp⟩ := hF
    have hi : i < fs.cache.length := by
      simp only [gt_iff_lt, not_lt] at h
      omega
    rw [FilterDataSource.rawT_eq_cached query items i fs us h]
    have hsplit : (avail items).filter query =
        fs.cache ++ ((avail items).drop fs.upstream_pointer).filter query := by
      rw [hc, ← List.filter_append, List.take_append_drop]
    have hres : fs.cache[i]? = ((avail items).filter query)[i]? := by
      rw [hsplit, List.getElem?_append, if_pos hi]
    refine ⟨fs.upstream_pointer, le_refl _, hup, hres, ?_, hIter, by simp, ?_⟩
    · show fs = _
      rw [← hc, ← hp]
    · intro hn
      have hge : fs.cache.length ≤ i := List.getElem?_eq_none_iff.mp hn
      omega

/-- Run a sequence of `raw(i)` queries against one `IteratorDataSource`,
collecting the results and the concatenated upstream-call trace. -/
def runIterT (items : List Record) (js : List Nat) (s : IterState) :
    List (Option Record) × IterState × List Nat :=
  match js with
  | [] => ([], s, [])
  | j :: js' =>
    let r := IteratorDataSource.rawT items j s
    let rest := runIterT items js' r.2.1
    (r.1 :: rest.1, rest.2.1, r.2.2 ++ rest.2.2)

/-- Run a sequence of `raw(i)` queries against one `FilterDataSource` (over
its upstream `IteratorDataSource`), collecting the results and the
concatenated predicate-evaluation trace. -/
def runFilterT (query : Record → Bool) (items : List Record) (js : List Nat)
    (fs : FilterState) (us : IterState) :
    List (Option Record) × FilterState × IterState × List Nat :=
  match js with
  | [] => ([], fs, us, [])
  | j :: js' =>
    let r := FilterDataSource.rawT query items j fs us
    let rest := runFilterT query items js' r.2.1 r.2.2.1
    (r.1 :: rest.1, rest.2.1, rest.2.2.1, r.2.2.2 ++ rest.2.2.2)

/-- `list(d.values())` of a Python ordered dict. -/
def dictValues (d : Record) : List Val := d.map Prod.snd

/-- `DataSource.row(i)` applied to a pulled raw record:

    async def row(self, i) -> list:
        _raw = await self.raw(i)
        if _raw:
            return list(_raw.values())

A falsy raw result (the sentinel or an empty record) makes `row` return
`None`. -/
def DataSource.rowOf (r : Option Record) : Option (List Val) :=
  match r with
  | some d => if d.isEmpty then none else some (dictValues d)
  | none => none

/-- `DataSource.num_cols` applied to `row(0)`:

    async def num_cols(self) -> int:
        _row = await self.row(0)
        return min(self._max_cols, len(_row)) if _row else 0

with `self._max_cols = 5`. -/
def DataSource.num_colsOf (row0 : Option (List Val)) : Nat :=
  match row0 with
  | some vs => if vs.isEmpty then 0 else min 5 vs.length
  | none => 0

/-- `row(i)` on an `IteratorDataSource` (stateful). -/
def IteratorDataSource.row (items : List Record) (i : Nat) (s : IterState) :
    Option (List Val) × IterState :=
  let r := IteratorDataSource.raw items i s
  (DataSource.rowOf r.1, r.2)

/-- `num_cols()` on an `IteratorDataSource` (stateful; reads `raw(0)`). -/
def IteratorDataSource.num_cols (items : List Record) (s : IterState) :
    Nat × IterState :=
  let r := IteratorDataSource.row items 0 s
  (DataSource.num_colsOf r.1, r.2)

/-- `row(i)` on a `FilterDataSource` (stateful, threads the upstream). -/
def FilterDataSource.row (query : Record → Bool) (items : List Record) (i : Nat)
    (fs : FilterState) (us : IterState) :
    Option (List Val) × FilterState × IterState :=
  let r := FilterDataSource.raw query items i fs us
  (DataSource.rowOf r.1, r.2.1, r.2.2)

/-- `startswith`-style helper: does `hay` start with `needle`? -/
def startsWithL (hay needle : List Char) : Bool :=
  match hay, needle with
  | _, [] => true
  | [], _ :: _ => false
  | a :: hs, b :: ns => a == b && startsWithL hs ns

/-- Python's substring test `needle in hay`. -/
def containsSub (hay needle : List Char) : Bool :=
  startsWithL hay needle ||
    match hay with
    | [] => false
    | _ :: t => containsSub t needle

/-- Python `str.lower()` (per-character lowering). -/
def strLower (s : String) : String := String.mk (s.data.map Char.toLower)

/-- `match_text(text)`: lowercase the query once; a record matches when any
of its (stringified, lowercased) values contains it as a substring:

    def match_text(text: str) -> Coroutine[dict, Any, bool]:
        search_text = str(text).lower()
        async def matcher(d: dict) -> bool:
            async for value in iter(d.values()):
                if search_text in str(value).lower():
                    return True
            return False
        return matcher
-/
def match_text (text : String) : Record → Bool :=
  fun d =>
    (dictValues d).any fun value =>
      containsSub (strLower value).data (strLower text).data

example : match_text "2" [("a", "2")] = true := by decide
example : match_text "2" [("a", "1")] = false := by decide
example : match_text "X" [("a", "abxc")] = true := by decide
example : match_text "" [("a", "1")] = true := by decide
example : match_text "z" [] = false := by decide

/-- Keyboard inputs handled by the non-terminal branches of
`TableView.handle_keyboard` (`enter`/`esc` terminate the loop and change no
controller state). -/
inductive Key where
  | down
  | up
  | resize
  | backspace
  | char (c : Char)

/-- State of the `TableView` controller.  `items` is the record sequence
behind `self.data_source` (an `IteratorDataSource`), which is constructed
once and never replaced; `filt = none` means `current_data_source` is the
very `data_source` object (pointer identity), `filt = some (t, fs)` means it
is a `FilterDataSource(self.data_source, match_text(t))` whose mutable state
is `fs` and whose upstream is the shared base table. -/
structure ViewState where
  items : List Record
  searchText : String
  selectedRow : Int
  base : IterState
  filt : Option (String × FilterState)
  deriving DecidableEq

/-- `TableView.__init__`: selection 0, empty search text,
`current_data_source = data_source`. -/
def ViewState.init (items : List Record) : ViewState :=
  ⟨items, "", 0, .init, none⟩

/-- `await self.current_data_source.row(i)`: dispatches to the active table;
a fetch through a `FilterDataSource` also mutates the shared base table. -/
def TableView.currentRow (vs : ViewState) (i : Nat) :
    Option (List Val) × ViewState :=
  match vs.filt with
  | none =>
    let r := IteratorDataSource.row vs.items i vs.base
    (r.1, { vs with base := r.2 })
  | some (t, fs) =>
    let r := FilterDataSource.row (match_text t) vs.items i fs vs.base
    (r.1, { vs with filt := some (t, r.2.1), base := r.2.2 })

/-- Scheduler events emitted while painting the visible rows: scheduling the
delayed force-refresh task, the task firing (slow path), the row fetch
completing, and the unconditional cancellation. -/
inductive Ev where
  | sched (tid : Nat) (delaySec : ℚ)
  | refreshFired (tid : Nat)
  | fetched (row : Nat)
  | cancel (tid : Nat)
  deriving DecidableEq

/-- `min_row_i = max(0, self.selected_row - rows + 1)`. -/
def minRowI (selected rows : Int) : Int := max 0 (selected - rows + 1)

/-- `max_row_i = min_row_i + rows`. -/
def maxRowI (selected rows : Int) : Int := minRowI selected rows + rows

/-- The visible window `range(min_row_i, max_row_i)` (as natural indices;
`min_row_i ≥ 0` by construction, and an empty range when `rows ≤ 0`). -/
def windowRows (selected rows : Int) : List Nat :=
  List.range' (minRowI selected rows).toNat
    (maxRowI selected rows - minRowI selected rows).toNat

/-- `cw = math.floor(width / max(1, num_cols))` — the per-column width. -/
def cellWidth (width numCols : Nat) : Nat := width / max 1 numCols

/-- `TableView.draw_table(height, width)`: computes the scroll window, reads
the column schema from the *base* data source, then paints each visible row,
racing each row fetch against a 0.1-second delayed refresh task that is
cancelled as soon as the fetch returns:

    async def draw_table(self, height, width):
        rows = height - 2
        min_row_i = max(0, self.selected_row - rows + 1)
        max_row_i = min_row_i + rows
        num_cols = await self.data_source.num_cols()
        cw = math.floor(width / max(1, num_cols))  # prevent division by zero
        for i in range(num_cols):
            ... str(await self.data_source.col_name(i)).ljust(cw) ...
        for i in range(min_row_i, max_row_i):
            task = asyncio.Task(self.refresh_after(.1), loop=self.loop)
            row = await self.current_data_source.row(i)
            task.cancel()
            ... paint ...

`fired i` tells whether row `i`'s delay elapsed before its fetch completed
(the slow path); the emitted events record the schedule/fire/fetch/cancel
order.  Painting itself (`insnstr`) touches no controller state.
`rowBlock` is the event block of one iteration of the row loop: schedule the
0.1-second delayed refresh task (task id = the row index), the task possibly
firing while the fetch is awaited, the fetch completing, and the
unconditional `task.cancel()`. -/
def rowBlock (fired : Nat → Bool) (i : Nat) : List Ev :=
  [Ev.sched i (1 / 10)] ++ (if fired i then [Ev.refreshFired i] else []) ++
    [Ev.fetched i, Ev.cancel i]

def TableView.draw_table (fired : Nat → Bool) (height width : Nat)
    (vs : ViewState) : ViewState × List Ev :=
  let rows : Int := (height : Int) - 2
  let nc := IteratorDataSource.num_cols vs.items vs.base
  let vs1 := { vs with base := nc.2 }
  let cw := cellWidth width nc.1
  let vs2 := (List.range nc.1).foldl
    (fun acc _ => { acc with base := (IteratorDataSource.raw acc.items 0 acc.base).2 })
    vs1
  (windowRows vs.selectedRow rows).foldl
    (fun acc i => ((TableView.currentRow acc.1 i).2, acc.2 ++ rowBlock fired i))
    (vs2, [])

/-- `TableView.draw`: clears, then draws table and prompt; only `draw_table`
touches controller state. -/
def TableView.draw (fired : Nat → Bool) (height width : Nat)
    (vs : ViewState) : ViewState :=
  (TableView.draw_table fired height width vs).1

/-- The state assignment inside `TableView.search` (before the repaint):

        text = self.search_text
        if text and len(text) > 0:
            self.current_data_source = FilterDataSource(self.data_source, match_text(text))
        else:
            if self.current_data_source != self.data_source:
                self.current_data_source = self.data_source

A non-empty text installs a freshly constructed `FilterDataSource` (empty
cache, `pointer = -1`, `upstream_pointer = 0`); an empty text points
`current_data_source` back at the base `data_source` object. -/
def TableView.searchAssign (vs : ViewState) : ViewState :=
  if vs.searchText ≠ "" then
    { vs with filt := some (vs.searchText, FilterState.init) }
  else
    match vs.filt with
    | some _ => { vs with filt := none }
    | none => vs

/-- `TableView.search`: reassign the active table from the search text, then
repaint. -/
def TableView.search (fired : Nat → Bool) (height width : Nat)
    (vs : ViewState) : ViewState :=
  TableView.draw fired height width (TableView.searchAssign vs)

/-- `TableView.movedown`:

    async def movedown(self):
        if await self.current_data_source.row(self.selected_row + 1):
            self.selected_row += 1
            await self.draw()

The probe itself may grow the active table's cache. -/
def TableView.movedown (fired : Nat → Bool) (height width : Nat)
    (vs : ViewState) : ViewState :=
  let r := TableView.currentRow vs (vs.selectedRow + 1).toNat
  match r.1 with
  | some _ =>
    TableView.draw fired height width { r.2 with selectedRow := r.2.selectedRow + 1 }
  | none => r.2

/-- `TableView.moveup`:

    async def moveup(self):
        if self.selected_row >= 1:
            self.selected_row -= 1
            await self.draw()
-/
def TableView.moveup (fired : Nat → Bool) (height width : Nat)
    (vs : ViewState) : ViewState :=
  if vs.selectedRow ≥ 1 then
    TableView.draw fired height width { vs with selectedRow := vs.selectedRow - 1 }
  else vs

/-- One non-terminal round of `TableView.handle_keyboard`: resize repaints;
arrow keys move the selection; backspace removes the last character of the
search text and re-runs `search`; any other key appends its character and
re-runs `search`. -/
def TableView.step (fired : Nat → Bool) (height width : Nat)
    (vs : ViewState) (k : Key) : ViewState :=
  match k with
  | .resize => TableView.draw fired height width vs
  | .down => TableView.movedown fired height width vs
  | .up => TableView.moveup fired height width vs
  | .backspace =>
    TableView.search fired height width
      { vs with searchText := vs.searchText.dropRight 1 }
  | .char c =>
    TableView.search fired height width
      { vs with searchText := vs.searchText.push c }

/-- One keyboard event together with the terminal dimensions and timer
behaviour in effect when it is processed. -/
structure Inp where
  key : Key
  height : Nat
  width : Nat
  fired : Nat → Bool

/-- Run the controller over a sequence of inputs from a given state. -/
def TableView.run (inps : List Inp) (vs : ViewState) : ViewState :=
  inps.foldl (fun acc inp => TableView.step inp.fired inp.height inp.width acc inp.key) vs

/-- Plain unfolding equation for the inner loop (for concrete evaluation). -/
theorem filterScanT_unfold (query : Record → Bool) (items : List Record)
    (fs : FilterState) (us : IterState) :
    filterScanT query items fs us =
      match IteratorDataSource.raw items fs.upstream_pointer us with
      | (none, us') => (false, fs, us', [])
      | (some item, us') =>
        if item.isEmpty then (false, fs, us', [])
        else if query item then
          (true,
           { cache := fs.cache ++ [item], pointer := fs.pointer + 1,
             upstream_pointer := fs.upstream_pointer + 1 },
           us', [fs.upstream_pointer])
        else
          ((filterScanT query items
              { fs with upstream_pointer := fs.upstream_pointer + 1 } us').1,
           (filterScanT query items
              { fs with upstream_pointer := fs.upstream_pointer + 1 } us').2.1,
           (filterScanT query items
              { fs with upstream_pointer := fs.upstream_pointer + 1 } us').2.2.1,
           fs.upstream_pointer ::
             (filterScanT query items
                { fs with upstream_pointer := fs.upstream_pointer + 1 } us').2.2.2) := by
  rcases hr : IteratorDataSource.raw items fs.upstream_pointer us with ⟨r, us'⟩
  match r with
  | none => rw [filterScanT_eq_none query items fs us us' hr]
  | some item =>
    by_cases he : item.isEmpty = true
    · rw [filterScanT_eq_empty query items fs us us' item hr he]
      simp [he]
    · by_cases hq : query item = true
      · rw [filterScanT_eq_match query items fs us us' item hr he hq]
        simp [he, hq]
      · rw [filterScanT_eq_skip query items fs us us' item hr he hq]
        simp [he, hq]

theorem FilterDataSource.rawT_unfold (query : Record → Bool) (items : List Record)
    (i : Nat) (fs : FilterState) (us : IterState) :
    FilterDataSource.rawT query items i fs us =
      if (i : Int) > fs.pointer then
        match filterScanT query items fs us with
        | (false, fs', us', ev) => (none, fs', us', ev)
        | (true, fs', us', ev) =>
          ((FilterDataSource.rawT query items i fs' us').1,
           (FilterDataSource.rawT query items i fs' us').2.1,
           (FilterDataSource.rawT query items i fs' us').2.2.1,
           ev ++ (FilterDataSource.rawT query items i fs' us').2.2.2)
      else (fs.cache[i]?, fs, us, []) := by
  by_cases h : (i : Int) > fs.pointer
  · rw [if_pos h]
    rcases hs : filterScanT query items fs us with ⟨b, fs', us', ev⟩
    match b with
    | false => rw [FilterDataSource.rawT_eq_false query items i fs fs' us us' ev h hs]
    | true => rw [FilterDataSource.rawT_eq_true query items i fs fs' us us' ev h hs]
  · rw [if_neg h, FilterDataSource.rawT_eq_cached query items i fs us h]

example :
    (FilterDataSource.rawT (match_text "x") [[("a","x")],[("a","y")]] 0 .init .init).1
      = some [("a","x")] := by
  simp +decide [FilterDataSource.rawT_unfold, filterScanT_unfold, IteratorDataSource.raw,
    IteratorDataSource.rawT, FilterState.init, IterState.init, match_text,
    dictValues, strLower, containsSub, startsWithL]

/-- Sequence-level characterization: over any sequence of queries against one
FilterDataSource on invariant states, every answer is an index of the
filtered available sequence, invariants persist, and the predicate
evaluations across the whole run form one contiguous ascending block of
fresh upstream indices. -/
theorem runFilterT_char (query : Record → Bool) (items : List Record) (js : List Nat)
    (fs : FilterState) (us : IterState) :
    IterInv items us → FiltInv query items fs →
    ∃ u', fs.upstream_pointer ≤ u' ∧ u' ≤ (avail items).length ∧
      (runFilterT query items js fs us).1 =
        js.map (fun j => ((avail items).filter query)[j]?) ∧
      FiltInv query items (runFilterT query items js fs us).2.1 ∧
      IterInv items (runFilterT query items js fs us).2.2.1 ∧
      (runFilterT query items js fs us).2.2.2 =
        List.range' fs.upstream_pointer (u' - fs.upstream_pointer) := by
  induction js generalizing fs us with
  | nil =>
    intro hIter hF
    exact ⟨fs.upstream_pointer, le_refl _, hF.1, rfl, hF, hIter, by simp [runFilterT]⟩
  | cons j js ih =>
    intro hIter hF
    obtain ⟨u1, s1, s2, s3, s4, s5, s6, s7⟩ :=
      FilterDataSource.rawT_char query items j fs us hIter hF
    have hF1 : FiltInv query items (FilterDataSource.rawT query items j fs us).2.1 := by
      rw [s4]
      exact ⟨s2, rfl, rfl⟩
    obtain ⟨u2, t1, t2, t3, t4, t5, t6⟩ :=
      ih (FilterDataSource.rawT query items j fs us).2.1
        (FilterDataSource.rawT query items j fs us).2.2.1 s5 hF1
    have hu1 : (FilterDataSource.rawT query items j fs us).2.1.upstream_pointer = u1 := by
      rw [s4]
    rw [hu1] at t1 t6
    simp only [runFilterT]
    refine ⟨u2, by omega, t2, ?_, t4, t5, ?_⟩
    · dsimp only
      rw [s3, t3]
      simp
    · dsimp only
      rw [s6, t6]
      exact range'_glue fs.upstream_pointer u1 u2 s1 t1

/-- All-truthy upstream sequences are fully available. -/
theorem avail_of_nonempty (items : List Record) (h : ∀ r ∈ items, r.isEmpty = false) :
    avail items = items := by
  induction items with
  | nil => rfl
  | cons a t ih =>
    have ha := h a (by simp)
    have ht : avail t = t := ih fun r hr => h r (by simp [hr])
    show List.takeWhile (fun r => !r.isEmpty) (a :: t) = a :: t
    rw [List.takeWhile_cons, ha]
    simp
    intro x hx
    simpa using h x (by simp [hx])

/-- C1: over any upstream record sequence (of genuine, non-empty records),
any predicate, and any sequence of index queries issued in any order against
a fresh FilterTable, every query `j` is answered with element `j` of the
predicate-filtered upstream sequence — the emitted records at filtered
indices 0,1,2,... are exactly the matching subsequence in upstream order —
and the ghost trace shows the predicate was evaluated on pairwise-distinct
upstream indices: at most once per upstream record across the whole query
sequence. -/
theorem C1_filter_subsequence (items : List Record) (query : Record → Bool)
    (js : List Nat) (us : IterState)
    (hne : ∀ r ∈ items, r.isEmpty = false) (hus : IterInv items us) :
    (runFilterT query items js .init us).1 =
      js.map (fun j => (items.filter query)[j]?) ∧
    (runFilterT query items js .init us).2.2.2.Nodup ∧
    ∀ e ∈ (runFilterT query items js .init us).2.2.2, e < items.length := by
  have hav : avail items = items := avail_of_nonempty items hne
  obtain ⟨u', h1, h2, h3, h4, h5, h6⟩ :=
    runFilterT_char query items js .init us hus (filtInv_init query items)
  rw [hav] at h2 h3
  have h0 : (FilterState.init).upstream_pointer = 0 := rfl
  rw [h0] at h6
  simp only [Nat.sub_zero] at h6
  refine ⟨h3, ?_, ?_⟩
  · rw [h6]
    exact List.nodup_range' ..
  · intro e he
    rw [h6] at he
    have := List.mem_range'_1.mp he
    omega

/-- Witness for C1 on the spec's own scenario: records
`[{"a":"1"},{"a":"2"},{"a":"3"}]` with query `"2"`, asking indices 1 then 0:
index 0 yields `{"a":"2"}`, index 1 the sentinel, and no predicate
evaluation is repeated. -/
theorem C1_filter_subsequence_witness :
    (∀ r ∈ ([[("a", "1")], [("a", "2")], [("a", "3")]] : List Record),
      r.isEmpty = false) ∧
    (runFilterT (match_text "2") [[("a", "1")], [("a", "2")], [("a", "3")]]
        [1, 0] .init .init).1 = [none, some [("a", "2")]] ∧
    (runFilterT (match_text "2") [[("a", "1")], [("a", "2")], [("a", "3")]]
        [1, 0] .init .init).2.2.2.Nodup := by
  have hne : ∀ r ∈ ([[("a", "1")], [("a", "2")], [("a", "3")]] : List Record),
      r.isEmpty = false := by decide
  obtain ⟨o1, o2, o3⟩ := C1_filter_subsequence
    [[("a", "1")], [("a", "2")], [("a", "3")]] (match_text "2") [1, 0] .init
    hne (iterInv_init _)
  refine ⟨hne, ?_, o2⟩
  rw [o1]
  decide

/-- C2: fetching index `j` from a fresh IndexedTable and then `i ≤ j` returns
the same record as fetching `i` from a fresh table; a fetch of an index
already within `[0..p]` performs no upstream call at all; and on invariant
states every upstream call of any fetch is for a not-yet-cached iterator
position — no upstream call is ever repeated for an already-cached index. -/
theorem C2_cache_correct (items : List Record) (i j : Nat) (hij : i ≤ j) :
    (IteratorDataSource.raw items i
        (IteratorDataSource.raw items j .init).2).1 =
      (IteratorDataSource.raw items i .init).1 ∧
    (∀ s : IterState, (i : Int) ≤ s.pointer →
      (IteratorDataSource.rawT items i s).2.2 = []) ∧
    (∀ s : IterState, IterInv items s →
      ∀ c ∈ (IteratorDataSource.rawT items i s).2.2, s.cache.length ≤ c) := by
  refine ⟨?_, ?_, ?_⟩
  · have hinv2 := iterInv_raw items j .init (iterInv_init items)
    rw [IteratorDataSource.raw_fst items i _ hinv2,
        IteratorDataSource.raw_fst items i .init (iterInv_init items)]
  · intro s hs
    rw [IteratorDataSource.rawT, dif_neg (by omega)]
  · intro s hinv c hc
    have hlen := iterInv_length items s hinv
    rw [IteratorDataSource.rawT_materializes items i s hinv] at hc
    dsimp only at hc
    rcases List.mem_append.mp hc with h | h
    · have := List.mem_range'_1.mp h
      omega
    · have hP : s.iterPos ≤ iterAfterPos items i s := by
        simp only [iterAfterPos]
        omega
      by_cases hif : items.length ≤ i
      · rw [if_pos hif] at h
        simp at h
        omega
      · rw [if_neg hif] at h
        simp at h

/-- Witness for C2 at `i = 0 ≤ j = 1` over a two-record source, with the
cached-index part applied at the state holding one cached record. -/
theorem C2_cache_correct_witness :
    (0 : Nat) ≤ 1 ∧
    (IteratorDataSource.raw [[("a", "x")], [("a", "y")]] 0
        (IteratorDataSource.raw [[("a", "x")], [("a", "y")]] 1 .init).2).1 =
      (IteratorDataSource.raw [[("a", "x")], [("a", "y")]] 0 .init).1 ∧
    (0 : Int) ≤ (⟨[[("a", "x")]], 0, 1⟩ : IterState).pointer ∧
    (IteratorDataSource.rawT [[("a", "x")], [("a", "y")]] 0
        ⟨[[("a", "x")]], 0, 1⟩).2.2 = [] := by
  have h := C2_cache_correct [[("a", "x")], [("a", "y")]] 0 1 (by decide)
  exact ⟨by decide, h.1, by decide,
    h.2.1 ⟨[[("a", "x")]], 0, 1⟩ (by decide)⟩

/-- C8 (amended): over any query sequence against one IndexedTable starting
from an invariant state, the exact upstream-call budget is
(records newly materialized) + (one terminal probe per query answered with
the sentinel) — not a single terminal probe overall: every further query
beyond the end repeats the exhausted probe. -/
theorem C8_call_budget (items : List Record) (js : List Nat) (s : IterState)
    (hinv : IterInv items s) :
    (runIterT items js s).2.2.length + s.cache.length =
      (runIterT items js s).2.1.cache.length +
        (runIterT items js s).1.count none ∧
    IterInv items (runIterT items js s).2.1 := by
  induction js generalizing s with
  | nil => simpa [runIterT] using hinv
  | cons j js ih =>
    have hlen := iterInv_length items s hinv
    have hPle : iterAfterPos items j s ≤ items.length :=
      iterAfterPos_le items j s hinv.2.2
    have hP1 : s.iterPos ≤ iterAfterPos items j s := by
      simp only [iterAfterPos]
      omega
    have hinv' : IterInv items
        ⟨items.take (iterAfterPos items j s), ((iterAfterPos items j s : Int)) - 1,
         iterAfterPos items j s⟩ := by
      refine ⟨rfl, ?_, hPle⟩
      show _ = ((items.take (iterAfterPos items j s)).length : Int) - 1
      rw [List.length_take, Nat.min_eq_left hPle]
    simp only [runIterT]
    rw [IteratorDataSource.rawT_materializes items j s hinv]
    dsimp only
    obtain ⟨ihe, ihi⟩ := ih _ hinv'
    refine ⟨?_, ihi⟩
    rw [List.length_append, List.length_append, List.length_range',
      List.count_cons]
    have htake : (items.take (iterAfterPos items j s)).length =
        iterAfterPos items j s := by
      rw [List.length_take, Nat.min_eq_left hPle]
    dsimp only at ihe
    rw [htake] at ihe
    by_cases hj : items.length ≤ j
    · rw [if_pos hj]
      have hnone : items[j]? = none := List.getElem?_eq_none_iff.mpr hj
      rw [hnone]
      simp only [List.length_cons, List.length_nil, beq_self_eq_true, if_true]
      omega
    · rw [if_neg hj]
      have hsome : ∃ r, items[j]? = some r := by
        rcases h : items[j]? with - | r
        · rw [List.getElem?_eq_none_iff] at h
          omega
        · exact ⟨r, rfl⟩
      obtain ⟨r, hr⟩ := hsome
      rw [hr]
      simp only [List.length_nil]
      have hne : ((some r : Option Record) == none) = false := rfl
      rw [hne]
      simp only [if_false, Bool.false_eq_true]
      omega

/-- Counterexample for C8 as stated: an empty upstream asked twice for index
0 makes two terminal probes — more than materialized (0) plus one. -/
theorem C8_cex :
    (runIterT [] [0, 0] .init).2.2.length = 2 ∧
    (runIterT [] [0, 0] .init).2.1.cache.length = 0 ∧
    ¬((runIterT [] [0, 0] .init).2.2.length ≤
        (runIterT [] [0, 0] .init).2.1.cache.length + 1) := by
  have h : runIterT [] [0, 0] IterState.init = ([none, none], .init, [0, 0]) := by
    simp [runIterT, IteratorDataSource.rawT, IterState.init]
  rw [h]
  exact ⟨rfl, rfl, by decide⟩

/-- C3: when `get(i)` hits upstream exhaustion, both tables return the
no-record sentinel as an ordinary value (the embedding is a total function:
`StopAsyncIteration` is caught inside `IteratorDataSource.raw`, and a falsy
pull makes `FilterDataSource.raw` return `None`), and the failed pull does
not advance the high-water mark: afterwards `p` still equals the number of
actually materialized records minus one and the cache is exactly the fully
materialized sequence, so the monotonic cache invariant is intact. -/
theorem C3_exhaustion_atomic (items : List Record) (i : Nat) :
    (∀ s : IterState, IterInv items s →
      (IteratorDataSource.raw items i s).1 = none →
      IterInv items (IteratorDataSource.raw items i s).2 ∧
      (IteratorDataSource.raw items i s).2.cache = items ∧
      (IteratorDataSource.raw items i s).2.pointer = (items.length : Int) - 1) ∧
    (∀ (query : Record → Bool) (fs : FilterState) (us : IterState),
      IterInv items us → FiltInv query items fs →
      (FilterDataSource.raw query items i fs us).1 = none →
      FiltInv query items (FilterDataSource.raw query items i fs us).2.1 ∧
      (FilterDataSource.raw query items i fs us).2.1.cache =
        (avail items).filter query ∧
      (FilterDataSource.raw query items i fs us).2.1.pointer =
        (((avail items).filter query).length : Int) - 1 ∧
      (FilterDataSource.raw query items i fs us).2.1.upstream_pointer =
        (avail items).length ∧
      IterInv items (FilterDataSource.raw query items i fs us).2.2) := by
  constructor
  · intro s hinv hn
    have hfst := IteratorDataSource.raw_fst items i s hinv
    have hsnd := IteratorDataSource.raw_snd items i s hinv
    have hni : items.length ≤ i := by
      rw [hfst] at hn
      exact List.getElem?_eq_none_iff.mp hn
    have hP : iterAfterPos items i s = items.length := by
      have := hinv.2.2
      simp only [iterAfterPos]
      omega
    rw [hP] at hsnd
    refine ⟨iterInv_raw items i s hinv, ?_, ?_⟩
    · rw [hsnd]
      exact List.take_length items
    · rw [hsnd]
  · intro query fs us hIter hF hn
    obtain ⟨u', s1, s2, s3, s4, s5, s6, s7⟩ :=
      FilterDataSource.rawT_char query items i fs us hIter hF
    have hu : u' = (avail items).length := s7 hn
    rw [hu] at s4
    rw [List.take_length] at s4
    have h1 : (FilterDataSource.raw query items i fs us).2.1 =
        (FilterDataSource.rawT query items i fs us).2.1 := rfl
    have h2 : (FilterDataSource.raw query items i fs us).2.2 =
        (FilterDataSource.rawT query items i fs us).2.2.1 := rfl
    rw [h1, h2, s4]
    refine ⟨⟨le_refl _, ?_, rfl⟩, rfl, rfl, rfl, s5⟩
    show ((avail items).filter query) = ((avail items).take (avail items).length).filter query
    rw [List.take_length]

/-- Witness for C3: a one-record source asked for index 5 (iterator side) and
a never-matching filter asked for index 0 (filter side) both hit exhaustion;
the probes return the sentinel and leave exact caches behind. -/
theorem C3_exhaustion_atomic_witness :
    (IteratorDataSource.raw [[("a", "x")]] 5 .init).1 = none ∧
    (IteratorDataSource.raw [[("a", "x")]] 5 .init).2.cache = [[("a", "x")]] ∧
    (IteratorDataSource.raw [[("a", "x")]] 5 .init).2.pointer = 0 ∧
    (FilterDataSource.raw (match_text "z") [[("a", "x")]] 0 .init .init).1 = none ∧
    (FilterDataSource.raw (match_text "z") [[("a", "x")]] 0 .init .init).2.1.cache = [] ∧
    (FilterDataSource.raw (match_text "z") [[("a", "x")]] 0 .init .init).2.1.upstream_pointer = 1 := by
  have hn1 : (IteratorDataSource.raw [[("a", "x")]] 5 .init).1 = none := by
    simp [IteratorDataSource.raw, IteratorDataSource.rawT, IterState.init]
  have hn2 : (FilterDataSource.raw (match_text "z") [[("a", "x")]] 0 .init .init).1 = none := by
    simp +decide [FilterDataSource.raw, FilterDataSource.rawT_unfold, filterScanT_unfold,
      IteratorDataSource.raw, IteratorDataSource.rawT, IterState.init, FilterState.init]
  have h := C3_exhaustion_atomic [[("a", "x")]] 5
  have h2 := C3_exhaustion_atomic [[("a", "x")]] 0
  obtain ⟨ha, hb, hc⟩ := h.1 .init (iterInv_init _) hn1
  obtain ⟨ka, kb, kc, kd, ke⟩ :=
    h2.2 (match_text "z") .init .init (iterInv_init _) (filtInv_init _ _) hn2
  refine ⟨hn1, hb, by rw [hc]; decide, hn2, ?_, ?_⟩
  · rw [kb]
    decide
  · rw [kd]
    decide

/-- C10: a falsy record from the upstream is treated by the public interface
exactly like the exhaustion sentinel: `row(i)` maps it to the sentinel, and a
`FilterDataSource` pull that encounters it returns the sentinel immediately,
leaving its whole state (including `upstream_pointer`) unchanged and
evaluating the predicate zero times — an empty record is indistinguishable
from end-of-data. -/
theorem C10_falsy_record (items : List Record) (i : Nat) :
    (∀ (s : IterState) (r : Record), (IteratorDataSource.raw items i s).1 = some r →
      r.isEmpty = true → DataSource.rowOf (IteratorDataSource.raw items i s).1 = none) ∧
    (∀ (query : Record → Bool) (fs : FilterState) (us us' : IterState) (item : Record),
      IteratorDataSource.raw items fs.upstream_pointer us = (some item, us') →
      item.isEmpty = true → (i : Int) > fs.pointer →
      FilterDataSource.rawT query items i fs us = (none, fs, us', [])) := by
  constructor
  · intro s r hr he
    rw [hr]
    simp [DataSource.rowOf, he]
  · intro query fs us us' item hr he hgt
    exact FilterDataSource.rawT_eq_false query items i fs fs us us' [] hgt
      (filterScanT_eq_empty query items fs us us' item hr he)

/-- Witness for C10: a source whose only record is the empty mapping `{}`:
`raw 0` returns it, `row 0` maps it to the sentinel, and a filter pull over
it returns the sentinel with untouched filter state and no predicate
evaluation. -/
theorem C10_falsy_record_witness :
    (IteratorDataSource.raw [[]] 0 .init).1 = some [] ∧
    DataSource.rowOf (IteratorDataSource.raw [[]] 0 .init).1 = none ∧
    FilterDataSource.rawT (match_text "x") [[]] 0 .init .init =
      (none, .init, ⟨[[]], 0, 1⟩, []) := by
  have e1 : IteratorDataSource.raw [[]] 0 .init = (some [], ⟨[[]], 0, 1⟩) := by
    simp [IteratorDataSource.raw, IteratorDataSource.rawT, IterState.init]
  have h := C10_falsy_record [[]] 0
  refine ⟨by rw [e1], h.1 .init [] (by rw [e1]) rfl, ?_⟩
  exact h.2 (match_text "x") .init .init ⟨[[]], 0, 1⟩ [] e1 rfl (by decide)

/-- Folding preserves any invariant preserved by each step. -/
theorem foldl_preserves {α : Type _} {β : Type _} (P : α → Prop) (f : α → β → α)
    (h : ∀ a b, P a → P (f a b)) :
    ∀ (l : List β) (a : α), P a → P (l.foldl f a) := by
  intro l
  induction l with
  | nil => intro a ha; exact ha
  | cons b l ih => intro a ha; exact ih _ (h a b ha)

/-- A row fetch through the active table touches only the table states: the
record sequence, search text, selection, and which table is active (and its
query string) are unchanged. -/
theorem currentRow_shape (vs : ViewState) (i : Nat) :
    (TableView.currentRow vs i).2.items = vs.items ∧
    (TableView.currentRow vs i).2.searchText = vs.searchText ∧
    (TableView.currentRow vs i).2.selectedRow = vs.selectedRow ∧
    (TableView.currentRow vs i).2.filt.map Prod.fst = vs.filt.map Prod.fst := by
  rcases hf : vs.filt with - | ⟨t, fs⟩ <;>
    simp [TableView.currentRow, hf]

/-- The controller invariant: the base table is in an invariant state over
the record sequence, and so is any active filter (over the shared base). -/
def ViewInv (vs : ViewState) : Prop :=
  IterInv vs.items vs.base ∧
  ∀ t fs, vs.filt = some (t, fs) → FiltInv (match_text t) vs.items fs

theorem viewInv_init (items : List Record) : ViewInv (ViewState.init items) := by
  refine ⟨iterInv_init items, ?_⟩
  intro t fs h
  exact absurd h (by simp [ViewState.init])

/-- A row fetch preserves the controller invariant. -/
theorem currentRow_inv (vs : ViewState) (i : Nat) (hinv : ViewInv vs) :
    ViewInv (TableView.currentRow vs i).2 := by
  obtain ⟨hb, hf⟩ := hinv
  rcases hfil : vs.filt with - | ⟨t, fs⟩
  · simp only [TableView.currentRow, hfil]
    refine ⟨?_, ?_⟩
    · exact iterInv_raw vs.items i vs.base hb
    · intro t fs h
      simp [hfil] at h
  · have hF := hf t fs hfil
    obtain ⟨u', s1, s2, s3, s4, s5, s6, s7⟩ :=
      FilterDataSource.rawT_char (match_text t) vs.items i fs vs.base hb hF
    simp only [TableView.currentRow, hfil]
    refine ⟨s5, ?_⟩
    intro t' fs' h
    simp only [Option.some.injEq, Prod.mk.injEq] at h
    obtain ⟨ht, hfs⟩ := h
    subst ht
    rw [← hfs]
    show FiltInv (match_text t) vs.items (FilterDataSource.raw (match_text t) vs.items i fs vs.base).2.1
    have : (FilterDataSource.raw (match_text t) vs.items i fs vs.base).2.1 =
        (FilterDataSource.rawT (match_text t) vs.items i fs vs.base).2.1 := rfl
    rw [this, s4]
    exact ⟨s2, rfl, rfl⟩

/-- What `draw_table` (hence `draw`) preserves: everything except the table
caches, and the controller invariant. -/
theorem draw_table_shape (fired : Nat → Bool) (height width : Nat) (vs : ViewState) :
    (TableView.draw_table fired height width vs).1.items = vs.items ∧
    (TableView.draw_table fired height width vs).1.searchText = vs.searchText ∧
    (TableView.draw_table fired height width vs).1.selectedRow = vs.selectedRow ∧
    (TableView.draw_table fired height width vs).1.filt.map Prod.fst =
      vs.filt.map Prod.fst ∧
    (ViewInv vs → ViewInv (TableView.draw_table fired height width vs).1) := by
  simp only [TableView.draw_table]
  set P : ViewState → Prop := fun a =>
    a.items = vs.items ∧ a.searchText = vs.searchText ∧
    a.selectedRow = vs.selectedRow ∧ a.filt.map Prod.fst = vs.filt.map Prod.fst ∧
    (ViewInv vs → ViewInv a) with hP
  have step2 : ∀ (a : ViewState × List Ev) (i : Nat), P a.1 →
      P ((TableView.currentRow a.1 i).2, a.2 ++ rowBlock fired i).1 := by
    intro a i ha
    obtain ⟨c1, c2, c3, c4⟩ := currentRow_shape a.1 i
    refine ⟨by rw [c1, ha.1], by rw [c2, ha.2.1], by rw [c3, ha.2.2.1],
      by rw [c4, ha.2.2.2.1], ?_⟩
    intro hv
    exact currentRow_inv a.1 i (ha.2.2.2.2 hv)
  have step1 : ∀ (a : ViewState) (i : Nat), P a →
      P { a with base := (IteratorDataSource.raw a.items 0 a.base).2 } := by
    intro a i ha
    refine ⟨ha.1, ha.2.1, ha.2.2.1, ha.2.2.2.1, ?_⟩
    intro hv
    obtain ⟨hb, hf⟩ := ha.2.2.2.2 hv
    exact ⟨iterInv_raw a.items 0 a.base hb, hf⟩
  have hbase : P { vs with base := (IteratorDataSource.num_cols vs.items vs.base).2 } := by
    refine ⟨rfl, rfl, rfl, rfl, ?_⟩
    intro hv
    obtain ⟨hb, hf⟩ := hv
    refine ⟨?_, hf⟩
    show IterInv vs.items (IteratorDataSource.num_cols vs.items vs.base).2
    have : (IteratorDataSource.num_cols vs.items vs.base).2 =
        (IteratorDataSource.raw vs.items 0 vs.base).2 := rfl
    rw [this]
    exact iterInv_raw vs.items 0 vs.base hb
  have h1 : P ((List.range (IteratorDataSource.num_cols vs.items vs.base).1).foldl
      (fun acc _ => { acc with base := (IteratorDataSource.raw acc.items 0 acc.base).2 })
      { vs with base := (IteratorDataSource.num_cols vs.items vs.base).2 }) :=
    foldl_preserves P _ step1 _ _ hbase
  have h2 := foldl_preserves (fun a : ViewState × List Ev => P a.1)
    (fun acc i => ((TableView.currentRow acc.1 i).2, acc.2 ++ rowBlock fired i))
    (fun a b ha => step2 a b ha)
    (windowRows vs.selectedRow ((height : Int) - 2)) (_, []) h1
  exact h2

/-- `draw` preserves selection, search text, records, the identity of the
active table (and its query), and the controller invariant. -/
theorem draw_shape (fired : Nat → Bool) (height width : Nat) (vs : ViewState) :
    (TableView.draw fired height width vs).items = vs.items ∧
    (TableView.draw fired height width vs).searchText = vs.searchText ∧
    (TableView.draw fired height width vs).selectedRow = vs.selectedRow ∧
    (TableView.draw fired height width vs).filt.map Prod.fst =
      vs.filt.map Prod.fst ∧
    (ViewInv vs → ViewInv (TableView.draw fired height width vs)) :=
  draw_table_shape fired height width vs

/-- The trace of one repaint: one schedule/fire?/fetch/cancel block per
visible row, in window order. -/
theorem draw_table_trace (fired : Nat → Bool) (height width : Nat) (vs : ViewState) :
    (TableView.draw_table fired height width vs).2 =
      (windowRows vs.selectedRow ((height : Int) - 2)).flatMap (rowBlock fired) := by
  simp only [TableView.draw_table]
  have gen : ∀ (l : List Nat) (st : ViewState) (tr : List Ev),
      (l.foldl (fun acc i => ((TableView.currentRow acc.1 i).2, acc.2 ++ rowBlock fired i))
        (st, tr)).2 = tr ++ l.flatMap (rowBlock fired) := by
    intro l
    induction l with
    | nil => intro st tr; simp
    | cons i l ih =>
      intro st tr
      simp only [List.foldl_cons, List.flatMap_cons]
      rw [ih]
      simp
  rw [gen]
  simp

/-- The row indices actually fetched during a repaint. -/
def fetchedRows (t : List Ev) : List Nat :=
  t.filterMap fun e =>
    match e with
    | .fetched i => some i
    | _ => none

theorem fetchedRows_blocks (fired : Nat → Bool) (l : List Nat) :
    fetchedRows (l.flatMap (rowBlock fired)) = l := by
  induction l with
  | nil => rfl
  | cons i l ih =>
    simp only [List.flatMap_cons, fetchedRows, List.filterMap_append]
    show (fetchedRows (rowBlock fired i)) ++ (fetchedRows (l.flatMap (rowBlock fired))) = i :: l
    rw [ih]
    rcases h : fired i <;> simp [rowBlock, fetchedRows, h]

/-- C6: on every repaint with `visible_rows = height − 2`, the rows actually
fetched are exactly the window starting at
`min_row = max(0, selected_row − visible_rows + 1)` of length `visible_rows`;
whenever at least one row is visible and the selection is non-negative, the
window `[min_row, min_row + visible_rows)` contains the selection; and the
column width `floor(width / max(1, num_cols))` is well-defined at zero
columns, where it degenerates to the full width. -/
theorem C6_scroll_window (fired : Nat → Bool) (height width : Nat) (vs : ViewState) :
    (fetchedRows (TableView.draw_table fired height width vs).2 =
      windowRows vs.selectedRow ((height : Int) - 2)) ∧
    (minRowI vs.selectedRow ((height : Int) - 2) =
      max 0 (vs.selectedRow - ((height : Int) - 2) + 1)) ∧
    (0 ≤ vs.selectedRow → 1 ≤ (height : Int) - 2 →
      minRowI vs.selectedRow ((height : Int) - 2) ≤ vs.selectedRow ∧
      vs.selectedRow <
        minRowI vs.selectedRow ((height : Int) - 2) + ((height : Int) - 2) ∧
      vs.selectedRow.toNat ∈ windowRows vs.selectedRow ((height : Int) - 2)) ∧
    cellWidth width 0 = width := by
  refine ⟨?_, rfl, ?_, ?_⟩
  · rw [draw_table_trace]
    exact fetchedRows_blocks fired _
  · intro hs hr
    refine ⟨?_, ?_, ?_⟩
    · simp only [minRowI]
      omega
    · simp only [minRowI]
      omega
    · rw [windowRows, List.mem_range'_1]
      simp only [minRowI, maxRowI]
      omega
  · simp [cellWidth]

/-- Witness for C6 on the spec's scenario: terminal height 5 (3 visible
rows), selection at 10 — the window is exactly `[8, 11)`, i.e. rows
`[8, 9, 10]`, and it contains the selection. -/
theorem C6_scroll_window_witness :
    windowRows 10 ((5 : Int) - 2) = [8, 9, 10] ∧
    (0 : Int) ≤ 10 ∧ (1 : Int) ≤ (5 : Int) - 2 ∧
    minRowI 10 ((5 : Int) - 2) = 8 ∧
    (10 : Int).toNat ∈ windowRows 10 ((5 : Int) - 2) ∧
    fetchedRows (TableView.draw_table (fun _ => false) 5 80
        ⟨[], "", 10, .init, none⟩).2 = windowRows 10 ((5 : Int) - 2) ∧
    cellWidth 80 0 = 80 := by
  have h := C6_scroll_window (fun _ => false) 5 80 ⟨[], "", 10, .init, none⟩
  refine ⟨by decide, by decide, by decide, by decide, ?_, h.1, h.2.2.2⟩
  exact (h.2.2.1 (by decide) (by decide)).2.2

/-- One scheduler event applied to the multiset of still-pending refresh
tasks: scheduling adds the task, cancellation removes it (idempotently — a
no-op when it already fired and completed), everything else is neutral. -/
def pendingStep (acc : List Nat) (e : Ev) : List Nat :=
  match e with
  | .sched tid _ => acc ++ [tid]
  | .cancel tid => acc.filter (fun x => x != tid)
  | _ => acc

/-- The refresh tasks scheduled during a trace and never cancelled. -/
def pendingTasks (t : List Ev) : List Nat := t.foldl pendingStep []

theorem block_pending (fired : Nat → Bool) (i : Nat) (acc : List Nat) :
    (rowBlock fired i).foldl pendingStep acc = acc.filter (fun x => x != i) := by
  rcases h : fired i <;>
    simp [rowBlock, h, pendingStep, List.filter_append]

theorem pending_blocks (fired : Nat → Bool) (l : List Nat) :
    (l.flatMap (rowBlock fired)).foldl pendingStep [] = [] := by
  induction l with
  | nil => rfl
  | cons i l ih =>
    simp only [List.flatMap_cons, List.foldl_append]
    rw [block_pending]
    simpa using ih

/-- The essential three events of one row paint, in order. -/
theorem block_sublist (fired : Nat → Bool) (i : Nat) :
    List.Sublist [Ev.sched i (1 / 10), Ev.fetched i, Ev.cancel i]
      (rowBlock fired i) := by
  rcases h : fired i <;> simp only [rowBlock, h]
  · simp
  · refine List.Sublist.cons₂ _ (List.Sublist.cons _ ?_)
    simp

theorem block_sublist_flat (fired : Nat → Bool) (l : List Nat) (i : Nat)
    (hm : i ∈ l) :
    List.Sublist [Ev.sched i (1 / 10), Ev.fetched i, Ev.cancel i]
      (l.flatMap (rowBlock fired)) := by
  induction l with
  | nil => simp at hm
  | cons j l ih =>
    simp only [List.flatMap_cons]
    rcases List.mem_cons.mp hm with h | h
    · subst h
      exact (block_sublist fired i).trans (List.sublist_append_left _ _)
    · exact (ih h).trans (List.sublist_append_right _ _)

/-- C9: during every repaint, each visible row's paint schedules the delayed
(0.1 s ≈ 100 ms) force-refresh task before awaiting the row fetch and
cancels exactly that task after the fetch completes — the schedule, fetch
and cancel appear in this order in the trace for every visible row — and
this holds for every firing pattern (fast path: the timer never fired; slow
path: it fired while the fetch was awaited), so at the end of the repaint no
scheduled refresh task is left pending. -/
theorem C9_refresh_cancel (fired : Nat → Bool) (height width : Nat) (vs : ViewState) :
    pendingTasks (TableView.draw_table fired height width vs).2 = [] ∧
    ∀ i ∈ windowRows vs.selectedRow ((height : Int) - 2),
      List.Sublist [Ev.sched i (1 / 10), Ev.fetched i, Ev.cancel i]
        (TableView.draw_table fired height width vs).2 := by
  rw [draw_table_trace]
  constructor
  · exact pending_blocks fired _
  · intro i hm
    exact block_sublist_flat fired _ i hm

/-- Witness for C9 with the timer firing on row 0 but not row 1 (both paths
at once), on a two-row window. -/
theorem C9_refresh_cancel_witness :
    (0 : Nat) ∈ windowRows 1 ((4 : Int) - 2) ∧
    (1 : Nat) ∈ windowRows 1 ((4 : Int) - 2) ∧
    pendingTasks (TableView.draw_table (fun i => i == 0) 4 80
      ⟨[[("a", "x")], [("a", "y")]], "", 1, .init, none⟩).2 = [] ∧
    List.Sublist [Ev.sched 0 (1 / 10), Ev.fetched 0, Ev.cancel 0]
      (TableView.draw_table (fun i => i == 0) 4 80
        ⟨[[("a", "x")], [("a", "y")]], "", 1, .init, none⟩).2 ∧
    List.Sublist [Ev.sched 1 (1 / 10), Ev.fetched 1, Ev.cancel 1]
      (TableView.draw_table (fun i => i == 0) 4 80
        ⟨[[("a", "x")], [("a", "y")]], "", 1, .init, none⟩).2 := by
  have h := C9_refresh_cancel (fun i => i == 0) 4 80
    ⟨[[("a", "x")], [("a", "y")]], "", 1, .init, none⟩
  refine ⟨by decide, by decide, h.1, ?_, ?_⟩
  · exact h.2 0 (by decide)
  · exact h.2 1 (by decide)

/-- C4: editing the search text (character appended or backspace) re-runs
`search`: when the resulting text is non-empty (appending always leaves it
non-empty) the active table becomes a freshly constructed
`FilterDataSource` over the base table with the text-match predicate —
fresh state `⟨[], -1, 0⟩`, sharing no cache with any previous filter — and
when the resulting text is empty the active table is set back to the very
base-table object (`filt = none` aliases `data_source`, whose `base` field
the assignment never touches); only then is the repaint performed. -/
theorem C4_search_edit (fired : Nat → Bool) (height width : Nat) (vs : ViewState)
    (c : Char) :
    (TableView.step fired height width vs (.char c) =
      TableView.draw fired height width
        { vs with searchText := vs.searchText.push c,
                  filt := some (vs.searchText.push c, FilterState.init) }) ∧
    vs.searchText.push c ≠ "" ∧
    (TableView.step fired height width vs .backspace =
      TableView.draw fired height width
        { vs with searchText := vs.searchText.dropRight 1,
                  filt := if vs.searchText.dropRight 1 = "" then none
                    else some (vs.searchText.dropRight 1, FilterState.init) }) ∧
    (TableView.searchAssign vs).base = vs.base ∧
    FilterState.init.cache = [] ∧ FilterState.init.pointer = -1 ∧
    FilterState.init.upstream_pointer = 0 := by
  have hpush : vs.searchText.push c ≠ "" := by
    intro hcon
    have hd : (vs.searchText.push c).data = vs.searchText.data ++ [c] := rfl
    rw [hcon] at hd
    exact absurd hd.symm (by simp)
  refine ⟨?_, hpush, ?_, ?_, rfl, rfl, rfl⟩
  · simp only [TableView.step, TableView.search, TableView.searchAssign]
    rw [if_pos hpush]
  · by_cases ht : vs.searchText.dropRight 1 = ""
    · simp only [TableView.step, TableView.search, TableView.searchAssign]
      rw [if_neg (not_not_intro ht), if_pos ht]
      rcases hf : vs.filt with - | p
      · cases vs with
        | mk it st sel b f =>
          simp only at hf
          subst hf
          rfl
      · rfl
    · simp only [TableView.step, TableView.search, TableView.searchAssign]
      rw [if_pos ht, if_neg ht]
  · rcases hf : vs.filt with - | p <;> by_cases ht : vs.searchText = "" <;>
      simp [TableView.searchAssign, ht, hf]

theorem searchAssign_sel (vs : ViewState) :
    (TableView.searchAssign vs).selectedRow = vs.selectedRow := by
  rcases hf : vs.filt with - | p <;> by_cases ht : vs.searchText = "" <;>
    simp [TableView.searchAssign, ht, hf]

/-- Every controller transition keeps the selection non-negative. -/
theorem step_sel_nonneg (fired : Nat → Bool) (height width : Nat) (vs : ViewState)
    (k : Key) (h0 : 0 ≤ vs.selectedRow) :
    0 ≤ (TableView.step fired height width vs k).selectedRow := by
  cases k with
  | resize =>
    simp only [TableView.step]
    rw [(draw_shape fired height width vs).2.2.1]
    exact h0
  | down =>
    simp only [TableView.step, TableView.movedown]
    rcases hr : (TableView.currentRow vs (vs.selectedRow + 1).toNat).1 with - | v
    · simp only [hr]
      rw [(currentRow_shape vs _).2.2.1]
      exact h0
    · simp only [hr]
      rw [(draw_shape fired height width _).2.2.1]
      show (0 : Int) ≤ _ + 1
      rw [(currentRow_shape vs _).2.2.1]
      omega
  | up =>
    simp only [TableView.step, TableView.moveup]
    by_cases hs : vs.selectedRow ≥ 1
    · rw [if_pos hs, (draw_shape fired height width _).2.2.1]
      show (0 : Int) ≤ vs.selectedRow - 1
      omega
    · rw [if_neg hs]
      exact h0
  | backspace =>
    simp only [TableView.step, TableView.search]
    rw [(draw_shape fired height width _).2.2.1, searchAssign_sel]
    exact h0
  | char c =>
    simp only [TableView.step, TableView.search]
    rw [(draw_shape fired height width _).2.2.1, searchAssign_sel]
    exact h0

/-- C5 (amended): in every state reachable by any sequence of controller
transitions from the initial state, `selected_row` is a non-negative
integer.  (The clamping half of the original claim fails: see the
counterexample — a search edit that shrinks the table does not re-clamp the
selection.) -/
theorem C5_selected_nonneg (items : List Record) (inps : List Inp) :
    0 ≤ (TableView.run inps (ViewState.init items)).selectedRow := by
  suffices h : ∀ (l : List Inp) (vs : ViewState), 0 ≤ vs.selectedRow →
      0 ≤ (TableView.run l vs).selectedRow by
    exact h inps _ (by simp [ViewState.init])
  intro l
  induction l with
  | nil => intro vs h0; exact h0
  | cons inp l ih =>
    intro vs h0
    simp only [TableView.run, List.foldl_cons]
    exact ih _ (step_sel_nonneg inp.fired inp.height inp.width vs inp.key h0)

/-- C7 (amended): `move_down` increments the selection exactly when
`row(selected_row + 1)` on the active table is not the sentinel.  When it is
the sentinel, the selection, search text, record sequence and the identity
of the active table are unchanged and the controller invariant persists —
but the transition is *not* a complete no-op on the table state: the failed
probe is exactly the `row` fetch, which may materialize caches and advance
cursors (see the counterexample).  `move_up` decrements exactly when
`selected_row ≥ 1` and otherwise is a complete no-op. -/
theorem C7_move_semantics (fired : Nat → Bool) (height width : Nat)
    (vs : ViewState) (hinv : ViewInv vs) :
    ((TableView.movedown fired height width vs).selectedRow = vs.selectedRow + 1 ↔
      ((TableView.currentRow vs (vs.selectedRow + 1).toNat).1).isSome = true) ∧
    ((TableView.currentRow vs (vs.selectedRow + 1).toNat).1 = none →
      TableView.movedown fired height width vs =
        (TableView.currentRow vs (vs.selectedRow + 1).toNat).2 ∧
      (TableView.movedown fired height width vs).selectedRow = vs.selectedRow ∧
      (TableView.movedown fired height width vs).searchText = vs.searchText ∧
      (TableView.movedown fired height width vs).items = vs.items ∧
      (TableView.movedown fired height width vs).filt.map Prod.fst =
        vs.filt.map Prod.fst ∧
      ViewInv (TableView.movedown fired height width vs)) ∧
    (1 ≤ vs.selectedRow →
      (TableView.moveup fired height width vs).selectedRow = vs.selectedRow - 1) ∧
    (¬1 ≤ vs.selectedRow → TableView.moveup fired height width vs = vs) := by
  refine ⟨?_, ?_, ?_, ?_⟩
  · rcases hr : (TableView.currentRow vs (vs.selectedRow + 1).toNat).1 with - | v
    · simp only [TableView.movedown, hr]
      rw [(currentRow_shape vs _).2.2.1]
      constructor
      · intro h
        omega
      · intro h
        simp at h
    · simp only [TableView.movedown, hr]
      rw [(draw_shape fired height width _).2.2.1]
      show (TableView.currentRow vs (vs.selectedRow + 1).toNat).2.selectedRow + 1 =
          vs.selectedRow + 1 ↔ _
      rw [(currentRow_shape vs _).2.2.1]
      simp
  · intro hr
    have hmv : TableView.movedown fired height width vs =
        (TableView.currentRow vs (vs.selectedRow + 1).toNat).2 := by
      simp only [TableView.movedown, hr]
    obtain ⟨c1, c2, c3, c4⟩ := currentRow_shape vs (vs.selectedRow + 1).toNat
    rw [hmv]
    exact ⟨rfl, c3, c2, c1, c4, currentRow_inv vs _ hinv⟩
  · intro hs
    simp only [TableView.moveup]
    rw [if_pos hs, (draw_shape fired height width _).2.2.1]
  · intro hs
    simp only [TableView.moveup]
    rw [if_neg hs]

/-- Witness for C7 (amended) at the initial state of a one-record table:
`move_up` at row 0 is a complete no-op. -/
theorem C7_move_semantics_witness :
    ¬(1 : Int) ≤ (ViewState.init [[("a", "x")]]).selectedRow ∧
    TableView.moveup (fun _ => false) 5 80 (ViewState.init [[("a", "x")]]) =
      ViewState.init [[("a", "x")]] := by
  have h := C7_move_semantics (fun _ => false) 5 80 (ViewState.init [[("a", "x")]])
    (viewInv_init _)
  exact ⟨by decide, h.2.2.2 (by decide)⟩

/-- Counterexample to C7 as stated: in a reachable state (active filter "x"
over the two-record base, row 0 already fetched), `move_down` finds the
sentinel — the selection stays 0 — but the transition is *not* a no-op on
the active table's state: the probing fetch advances the filter's
`upstream_pointer` from 1 to 2 and materializes the second upstream record
into the shared base cache. -/
theorem C7_cex :
    (TableView.movedown (fun _ => false) 3 10
        ⟨[[("a", "x")], [("a", "y")]], "x", 0, ⟨[[("a", "x")]], 0, 1⟩,
         some ("x", ⟨[[("a", "x")]], 0, 1⟩)⟩).selectedRow = 0 ∧
    (TableView.movedown (fun _ => false) 3 10
        ⟨[[("a", "x")], [("a", "y")]], "x", 0, ⟨[[("a", "x")]], 0, 1⟩,
         some ("x", ⟨[[("a", "x")]], 0, 1⟩)⟩).filt =
      some ("x", ⟨[[("a", "x")]], 0, 2⟩) ∧
    TableView.movedown (fun _ => false) 3 10
        ⟨[[("a", "x")], [("a", "y")]], "x", 0, ⟨[[("a", "x")]], 0, 1⟩,
         some ("x", ⟨[[("a", "x")]], 0, 1⟩)⟩ ≠
      ⟨[[("a", "x")], [("a", "y")]], "x", 0, ⟨[[("a", "x")]], 0, 1⟩,
       some ("x", ⟨[[("a", "x")]], 0, 1⟩)⟩ := by
  have e3 : FilterDataSource.rawT (match_text "x") [[("a", "x")], [("a", "y")]] 1
      ⟨[[("a", "x")]], 0, 1⟩ ⟨[[("a", "x")]], 0, 1⟩ =
      (none, ⟨[[("a", "x")]], 0, 2⟩, ⟨[[("a", "x")], [("a", "y")]], 1, 2⟩, [1]) := by
    simp +decide [FilterDataSource.rawT_unfold, filterScanT_unfold,
      IteratorDataSource.raw, IteratorDataSource.rawT]
  have hmv : TableView.movedown (fun _ => false) 3 10
      ⟨[[("a", "x")], [("a", "y")]], "x", 0, ⟨[[("a", "x")]], 0, 1⟩,
       some ("x", ⟨[[("a", "x")]], 0, 1⟩)⟩ =
      ⟨[[("a", "x")], [("a", "y")]], "x", 0, ⟨[[("a", "x")], [("a", "y")]], 1, 2⟩,
       some ("x", ⟨[[("a", "x")]], 0, 2⟩)⟩ := by
    simp only [TableView.movedown, TableView.currentRow, FilterDataSource.row,
      FilterDataSource.raw]
    norm_num
    rw [e3]
    rfl
  rw [hmv]
  refine ⟨rfl, rfl, by decide⟩

/-- Counterexample to C5 as stated: from the initial state over two records,
move down (selection 1), then type `z` (a filter matching nothing).  The
reachable state has `selected_row = 1` while the active table has no row at
all — the selection is not re-clamped when a search edit shrinks the active
table, so it exceeds the last available row. -/
theorem C5_cex :
    (TableView.run
        [⟨.down, 3, 10, fun _ => false⟩, ⟨.char 'z', 3, 10, fun _ => false⟩]
        (ViewState.init [[("a", "x")], [("a", "y")]])).selectedRow = 1 ∧
    (TableView.currentRow
        (TableView.run
          [⟨.down, 3, 10, fun _ => false⟩, ⟨.char 'z', 3, 10, fun _ => false⟩]
          (ViewState.init [[("a", "x")], [("a", "y")]])) 0).1 = none := by
  have e1 : IteratorDataSource.rawT [[("a", "x")], [("a", "y")]] ((0 : Int) + 1).toNat
      IterState.init =
      (some [("a", "y")], ⟨[[("a", "x")], [("a", "y")]], 1, 2⟩, [0, 1]) := by
    simp +decide [IteratorDataSource.rawT, IterState.init]
  have e2 : IteratorDataSource.rawT [[("a", "x")], [("a", "y")]] 0
      ⟨[[("a", "x")], [("a", "y")]], 1, 2⟩ =
      (some [("a", "x")], ⟨[[("a", "x")], [("a", "y")]], 1, 2⟩, []) := by
    simp [IteratorDataSource.rawT]
  have e3 : IteratorDataSource.rawT [[("a", "x")], [("a", "y")]] 1
      ⟨[[("a", "x")], [("a", "y")]], 1, 2⟩ =
      (some [("a", "y")], ⟨[[("a", "x")], [("a", "y")]], 1, 2⟩, []) := by
    simp [IteratorDataSource.rawT]
  have e6 : FilterDataSource.rawT (match_text "z") [[("a", "x")], [("a", "y")]] 1
      ⟨[], -1, 0⟩ ⟨[[("a", "x")], [("a", "y")]], 1, 2⟩ =
      (none, ⟨[], -1, 2⟩, ⟨[[("a", "x")], [("a", "y")]], 1, 2⟩, [0, 1]) := by
    simp +decide [FilterDataSource.rawT_unfold, filterScanT_unfold,
      IteratorDataSource.raw, IteratorDataSource.rawT]
  have e7 : FilterDataSource.rawT (match_text "z") [[("a", "x")], [("a", "y")]] 0
      ⟨[], -1, 2⟩ ⟨[[("a", "x")], [("a", "y")]], 1, 2⟩ =
      (none, ⟨[], -1, 2⟩, ⟨[[("a", "x")], [("a", "y")]], 1, 2⟩, []) := by
    simp +decide [FilterDataSource.rawT_unfold, filterScanT_unfold,
      IteratorDataSource.raw, IteratorDataSource.rawT]
  have ew1 : windowRows ((0 : Int) + 1) (((3 : Nat) : Int) - 2) = [1] := by decide
  have ew2 : windowRows (1 : Int) (((3 : Nat) : Int) - 2) = [1] := by decide
  have hs1 : TableView.step (fun _ => false) 3 10
      (ViewState.init [[("a", "x")], [("a", "y")]]) .down =
      ⟨[[("a", "x")], [("a", "y")]], "", 1, ⟨[[("a", "x")], [("a", "y")]], 1, 2⟩,
       none⟩ := by
    simp only [TableView.step, TableView.movedown, TableView.currentRow,
      TableView.draw, TableView.draw_table, IteratorDataSource.num_cols,
      IteratorDataSource.row, IteratorDataSource.raw, ViewState.init,
      e1, e2, e3, ew1, DataSource.rowOf, DataSource.num_colsOf, dictValues,
      List.foldl_cons, List.foldl_nil, List.range_succ, List.range_zero]
    simp +decide [e2, e3, show List.range 1 = [0] from by decide]
  have hs2 : TableView.step (fun _ => false) 3 10
      ⟨[[("a", "x")], [("a", "y")]], "", 1, ⟨[[("a", "x")], [("a", "y")]], 1, 2⟩,
       none⟩ (.char 'z') =
      ⟨[[("a", "x")], [("a", "y")]], "z", 1, ⟨[[("a", "x")], [("a", "y")]], 1, 2⟩,
       some ("z", ⟨[], -1, 2⟩)⟩ := by
    simp only [TableView.step, TableView.search, TableView.searchAssign,
      show ("".push 'z' : String) = "z" from by decide]
    rw [if_pos (by decide : ("z" : String) ≠ "")]
    simp only [TableView.draw, TableView.draw_table, TableView.currentRow,
      IteratorDataSource.num_cols, IteratorDataSource.row, IteratorDataSource.raw,
      DataSource.rowOf, DataSource.num_colsOf, dictValues, e2, ew2,
      FilterDataSource.row, FilterDataSource.raw, FilterState.init, e6,
      List.foldl_cons, List.foldl_nil, List.range_succ, List.range_zero]
    simp +decide [e2, e6, show List.range 1 = [0] from by decide]
  have hrun : TableView.run
      [⟨.down, 3, 10, fun _ => false⟩, ⟨.char 'z', 3, 10, fun _ => false⟩]
      (ViewState.init [[("a", "x")], [("a", "y")]]) =
      ⟨[[("a", "x")], [("a", "y")]], "z", 1, ⟨[[("a", "x")], [("a", "y")]], 1, 2⟩,
       some ("z", ⟨[], -1, 2⟩)⟩ := by
    simp only [TableView.run, List.foldl_cons, List.foldl_nil]
    rw [hs1, hs2]
  rw [hrun]
  refine ⟨rfl, ?_⟩
  simp only [TableView.currentRow, FilterDataSource.row, FilterDataSource.raw, e7]
  rfl

/-- Witness for C8 (amended): one record, queries `[0, 2, 2]`: three upstream
calls = one materialized record + two sentinel answers (the exhaustion probe
is repeated for the second past-the-end query). -/
theorem C8_call_budget_witness :
    (runIterT [[("a", "x")]] [0, 2, 2] .init).2.2.length = 3 ∧
    (runIterT [[("a", "x")]] [0, 2, 2] .init).2.1.cache.length = 1 ∧
    (runIterT [[("a", "x")]] [0, 2, 2] .init).1.count none = 2 ∧
    (runIterT [[("a", "x")]] [0, 2, 2] .init).2.2.length +
        (IterState.init).cache.length =
      (runIterT [[("a", "x")]] [0, 2, 2] .init).2.1.cache.length +
        (runIterT [[("a", "x")]] [0, 2, 2] .init).1.count none := by
  have h := C8_call_budget [[("a", "x")]] [0, 2, 2] .init (iterInv_init _)
  have e : runIterT [[("a", "x")]] [0, 2, 2] IterState.init =
      ([some [("a", "x")], none, none], ⟨[[("a", "x")]], 0, 1⟩, [0, 1, 1]) := by
    simp [runIterT, IteratorDataSource.rawT, IterState.init]
  refine ⟨?_, ?_, ?_, h.1⟩ <;> rw [e] <;> decide
